import Mathlib

/-!
Shallow embedding of the Qualcomm shared-memory heap manager
(`drivers/soc/qcom/smem.c`) and proofs about it.

Modelling conventions:
* Region-0 memory is viewed at the granularity the C code accesses it:
  `phdrAt o` is the `smem_partition_header` parsed at byte offset `o`,
  `entAt o` is the `smem_private_entry` parsed at byte offset `o`, and the
  global header / table-of-contents fields are separate typed views.
  Pointers are modelled as byte offsets from the region-0 virtual base.
* All persisted multi-byte fields are little-endian on media; the model
  tracks their numeric values directly, applying the C truncations
  (`cpu_to_le16`/`cpu_to_le32`) as `% 2^16` / `% 2^32` on writes, and the
  32-bit wrap of `le32_add_cpu` on offset updates.
* The kernel `ALIGN` macro is modelled bit-faithfully over 64-bit words.
* The cached-region (backward) walk performs pointer subtraction; it is
  modelled over `Int`, which yields the same observable results as the
  64-bit wrapping C pointer arithmetic for the in-range states reachable
  here (a wrapped C pointer compares `>= e` and aborts; a negative `Int`
  position exits the loop and aborts through the `e < phdr` check).
* The hardware spinlock is modelled by a `lockOk` input (acquisition
  success/timeout), and each public entry point additionally returns the
  list of coordination events it performs, in program order: `acquire`
  and `release` mark the `hwspin_lock_timeout_irqsave` /
  `hwspin_unlock_irqrestore` calls, and `heapOp` marks the access to the
  shared heap structures performed between them (or, for
  `qcom_smem_get_free_space`, without them).
* Handle lifecycle (`!__smem`, probe/remove) is out of scope; operations
  are modelled against a present handle.
-/

namespace Smem

def W16 : Nat := 2 ^ 16
def W32 : Nat := 2 ^ 32
def W64 : Nat := 2 ^ 64

/-- Error codes returned by the driver (negative errnos in C). -/
inductive Err where
  | EINVAL
  | EEXIST
  | ENOSPC
  | ENOMEM
  | ENOENT
  | ENXIO
  | ETIMEDOUT
deriving DecidableEq, Repr

def SMEM_ITEM_LAST_FIXED : Nat := 8
def SMEM_ITEM_COUNT : Nat := 512
def SMEM_HOST_COUNT : Nat := 13
def SMEM_GLOBAL_HOST : Nat := 0xfffe
def SMEM_PRIVATE_CANARY : Nat := 0xa5a5
def AUX_BASE_MASK : Nat := 0xfffffffc
def SZ_4K : Nat := 4096

def SMEM_PTABLE_MAGIC : List Nat := [0x24, 0x54, 0x4f, 0x43]
def SMEM_PART_MAGIC : List Nat := [0x24, 0x50, 0x52, 0x54]
def SMEM_INFO_MAGIC : List Nat := [0x53, 0x49, 0x49, 0x49]

/-- sizeof(struct smem_partition_header): 4+2+2+4+4+4+12. -/
def PHDR_SIZE : Nat := 32

/-- sizeof(struct smem_private_entry): 2+2+4+2+2+4. -/
def PENTRY_SIZE : Nat := 16

/-- Kernel `ALIGN(x, a)` macro, `((x) + ((a) - 1)) & ~((a) - 1)`, computed
over 64-bit unsigned words exactly as C does (including `a = 0`, where
`a - 1` wraps to all-ones and the mask is zero). -/
def kALIGN (x a : Nat) : Nat :=
  Nat.land ((x + (a + W64 - 1) % W64) % W64) ((W64 - 1) - (a + W64 - 1) % W64)

/-- struct smem_private_entry (the `reserved` field is never read). -/
structure PrivEntry where
  canary : Nat
  item : Nat
  size : Nat
  padding_data : Nat
  padding_hdr : Nat
deriving DecidableEq, Repr

/-- struct smem_partition_header (the `reserved` words are never read). -/
structure PartitionHeader where
  magic : List Nat
  host0 : Nat
  host1 : Nat
  size : Nat
  offset_free_uncached : Nat
  offset_free_cached : Nat
deriving DecidableEq, Repr

/-- struct smem_ptable_entry. -/
structure PtableEntry where
  offset : Nat
  size : Nat
  flags : Nat
  host0 : Nat
  host1 : Nat
  cacheline : Nat
deriving DecidableEq, Repr

/-- struct smem_global_entry (one slot of the global TOC). -/
structure GlobalEntry where
  allocated : Nat
  offset : Nat
  size : Nat
  aux_base : Nat
deriving DecidableEq, Repr

/-- Typed views of region-0 shared memory: the global heap header fields,
the global TOC, and the partition headers / private item headers parsed
at arbitrary byte offsets. -/
structure Mem0 where
  free_offset : Nat
  available : Nat
  toc : Nat → GlobalEntry
  phdrAt : Nat → PartitionHeader
  entAt : Nat → PrivEntry

/-- struct smem_region (only the fields the modelled paths read). -/
structure SmemRegion where
  aux_base : Nat
  size : Nat
deriving DecidableEq, Repr

/-- struct smem_ptable as parsed in memory. -/
structure SmemPtable where
  magic : List Nat
  version : Nat
  num_entries : Nat
  entries : List PtableEntry
deriving DecidableEq, Repr

/-- A mapped memory region together with the partition table that would be
parsed at any given byte offset of it. -/
structure Region where
  size : Nat
  ptableAt : Nat → SmemPtable

/-- The process-wide smem handle (struct qcom_smem). -/
structure QcomSmem where
  item_count : Nat
  ptable_entries : Nat → Option PtableEntry
  global_partition_entry : Option PtableEntry
  regions : List SmemRegion
  mem : Mem0

/-- Coordination events performed by a public operation, in program order. -/
inductive Ev where
  | acquire
  | heapOp
  | release
deriving DecidableEq, Repr

/-- uncached_entry_next: `p + sizeof(*e) + padding_hdr + size`
(64-bit pointer arithmetic). -/
def uncachedNext (e : PrivEntry) (o : Nat) : Nat :=
  (o + PENTRY_SIZE + e.padding_hdr + e.size) % W64

/-- cached_entry_next: `p - size - ALIGN(sizeof(*e), cacheline)`. -/
def cachedNext (e : PrivEntry) (A : Nat) (o : Int) : Int :=
  o - e.size - A

/-- Forward (uncached) item walk of qcom_smem_alloc_private: from `hdr`,
while `hdr < end && hdr + 1 < end`, check the canary, fail with EEXIST on
an item match, check forward progress, and advance; returns the exit
position when the loop condition fails. -/
def allocWalk (ent : Nat → PrivEntry) (endO item : Nat) (hdr : Nat) :
    Except Err Nat :=
  if h : hdr < endO ∧ hdr + PENTRY_SIZE < endO then
    if (ent hdr).canary ≠ SMEM_PRIVATE_CANARY then .error .EINVAL
    else if (ent hdr).item = item then .error .EEXIST
    else if h2 : uncachedNext (ent hdr) hdr ≤ hdr then .error .EINVAL
    else allocWalk ent endO item (uncachedNext (ent hdr) hdr)
  else .ok hdr
termination_by endO - hdr
decreasing_by simp only [not_le] at h2; omega

/-- qcom_smem_alloc_private. Returns the result together with the final
region-0 memory (the memory is returned unchanged on every error path,
mirroring the C code in which no store precedes any failure return). -/
def qcom_smem_alloc_private (mem : Mem0) (entry : PtableEntry)
    (item size : Nat) : Except Err Unit × Mem0 :=
  let base := entry.offset
  let phdr := mem.phdrAt base
  let p_end := base + entry.size
  let hdr0 := base + PHDR_SIZE
  let endO := base + phdr.offset_free_uncached
  let cached := base + phdr.offset_free_cached
  if ¬ (base ≤ endO ∧ endO ≤ cached) ∨ cached > p_end then
    (.error .EINVAL, mem)
  else
    match allocWalk mem.entAt endO item hdr0 with
    | .error e => (.error e, mem)
    | .ok hdr =>
      if hdr > endO then (.error .EINVAL, mem)
      else
        let alloc_size := (PENTRY_SIZE + kALIGN size 8) % W64
        if (hdr + alloc_size) % W64 > cached then (.error .ENOSPC, mem)
        else
          let stored := kALIGN size 8 % W32
          let newE : PrivEntry :=
            { canary := SMEM_PRIVATE_CANARY
              item := item % W16
              size := stored
              padding_data := (stored + W64 - size % W64) % W64 % W16
              padding_hdr := 0 }
          (.ok (),
           { mem with
             entAt := fun o => if o = hdr then newE else mem.entAt o
             phdrAt := fun o =>
               if o = base then
                 { phdr with
                   offset_free_uncached :=
                     (phdr.offset_free_uncached + alloc_size) % W32 }
               else mem.phdrAt o })

/-- qcom_smem_alloc_global. Same state-threading convention as the
private allocator. -/
def qcom_smem_alloc_global (mem : Mem0) (item size : Nat) :
    Except Err Unit × Mem0 :=
  let entry := mem.toc item
  if entry.allocated ≠ 0 then (.error .EEXIST, mem)
  else
    let sz := kALIGN size 8
    if sz > mem.available then (.error .ENOMEM, mem)
    else
      (.ok (),
       { mem with
         toc := fun i =>
           if i = item then
             { allocated := 1
               offset := mem.free_offset
               size := sz % W32
               aux_base := entry.aux_base }
           else mem.toc i
         free_offset := (mem.free_offset + sz) % W32
         available := (mem.available + (W32 - sz % W32) % W32) % W32 })

/-- Forward (uncached) item walk of qcom_smem_get_private: same traversal
as the allocate walk, but an item match returns the item pointer and the
usable size (stored size minus padding_data) after the bounds checks.
`.inr h` is the fall-through exit position. -/
def getWalkUn (ent : Nat → PrivEntry) (endO partSize item : Nat)
    (e : Nat) : Except Err (Sum (Nat × Nat) Nat) :=
  if h : e < endO ∧ e + PENTRY_SIZE < endO then
    if (ent e).canary ≠ SMEM_PRIVATE_CANARY then .error .EINVAL
    else if (ent e).item = item then
      if (ent e).size < partSize ∧ (ent e).padding_data < (ent e).size then
        let entry_size := (ent e).size - (ent e).padding_data
        let item_ptr := (e + PENTRY_SIZE + (ent e).padding_hdr) % W64
        if item_ptr ≥ e ∧ (item_ptr + entry_size) % W64 ≥ item_ptr ∧
            (item_ptr + entry_size) % W64 ≤ endO then
          .ok (.inl (item_ptr, entry_size))
        else .error .EINVAL
      else .error .EINVAL
    else if h2 : uncachedNext (ent e) e ≤ e then .error .EINVAL
    else getWalkUn ent endO partSize item (uncachedNext (ent e) e)
  else .ok (.inr e)
termination_by endO - e
decreasing_by simp only [not_le] at h2; omega

/-- Backward (cached) item walk of qcom_smem_get_private, over `Int`
positions. `.inr e` is the fall-through exit position. -/
def getWalkCa (ent : Nat → PrivEntry) (cachedEnd : Int)
    (A partSize item : Nat) (e : Int) :
    Except Err (Sum (Nat × Nat) Int) :=
  if h : e > cachedEnd then
    if (ent e.toNat).canary ≠ SMEM_PRIVATE_CANARY then .error .EINVAL
    else if (ent e.toNat).item = item then
      if (ent e.toNat).size < partSize ∧
          (ent e.toNat).padding_data < (ent e.toNat).size then
        let entry_size := (ent e.toNat).size - (ent e.toNat).padding_data
        let item_ptr : Int := e - (ent e.toNat).size
        if item_ptr ≥ cachedEnd ∧ item_ptr + entry_size ≥ item_ptr ∧
            item_ptr + entry_size ≤ e then
          .ok (.inl (item_ptr.toNat, entry_size))
        else .error .EINVAL
      else .error .EINVAL
    else if h2 : cachedNext (ent e.toNat) A e ≥ e then .error .EINVAL
    else getWalkCa ent cachedEnd A partSize item (cachedNext (ent e.toNat) A e)
  else .ok (.inr e)
termination_by (e - cachedEnd).toNat
decreasing_by simp only [not_le] at h2; omega

/-- qcom_smem_get_private. Returns (item byte offset, usable size). -/
def qcom_smem_get_private (mem : Mem0) (entry : PtableEntry) (item : Nat) :
    Except Err (Nat × Nat) :=
  let base := entry.offset
  let phdr := mem.phdrAt base
  let partition_size := entry.size
  let p_end := base + partition_size
  let cacheline := entry.cacheline
  let e0 := base + PHDR_SIZE
  let endO := base + phdr.offset_free_uncached
  let cachedEnd := base + phdr.offset_free_cached
  if ¬ (base ≤ endO ∧ endO ≤ cachedEnd) ∨ cachedEnd > p_end then
    .error .EINVAL
  else
    match getWalkUn mem.entAt endO partition_size item e0 with
    | .error er => .error er
    | .ok (.inl r) => .ok r
    | .ok (.inr e) =>
      if e > endO then .error .EINVAL
      else if cachedEnd = p_end then .error .ENOENT
      else
        let A := kALIGN PENTRY_SIZE cacheline
        let first : Int := (base : Int) + phdr.size - A
        if ¬ ((cachedEnd : Int) ≥ endO ∧ (cachedEnd : Int) ≤ p_end) ∨
            ¬ (first ≥ cachedEnd ∧ first + PENTRY_SIZE ≥ first ∧
                first + PENTRY_SIZE ≤ p_end) then
          .error .EINVAL
        else
          match getWalkCa mem.entAt cachedEnd A partition_size item first with
          | .error er => .error er
          | .ok (.inl r) => .ok r
          | .ok (.inr e2) =>
            if e2 < (base : Int) then .error .EINVAL else .error .ENOENT

/-- Region-lookup loop of qcom_smem_get_global: find the region matching
the entry's aux_base tag (tag 0 matches the first region), bounds-check,
and return (region index, offset, size). -/
def findGlobal (entry : GlobalEntry) (auxb : Nat) :
    List SmemRegion → Nat → Except Err (Nat × Nat × Nat)
  | [], _ => .error .ENOENT
  | area :: rest, i =>
    if area.aux_base = auxb ∨ auxb = 0 then
      if entry.size + entry.offset > area.size then .error .EINVAL
      else .ok (i, entry.offset, entry.size)
    else findGlobal entry auxb rest (i + 1)

/-- qcom_smem_get_global. -/
def qcom_smem_get_global (mem : Mem0) (regions : List SmemRegion)
    (item : Nat) : Except Err (Nat × Nat × Nat) :=
  let entry := mem.toc item
  if entry.allocated = 0 then .error Err.ENXIO
  else findGlobal entry (Nat.land entry.aux_base AUX_BASE_MASK) regions 0

/-- Routing shared by the public entry points: a partition registered for
`host`, else the global partition, else (`none`) the legacy global heap. -/
def routeEntry (s : QcomSmem) (host : Nat) : Option PtableEntry :=
  if host < SMEM_HOST_COUNT then
    match s.ptable_entries host with
    | some e => some e
    | none => s.global_partition_entry
  else s.global_partition_entry

/-- qcom_smem_alloc: the public allocation entry point. `lockOk` is the
outcome of `hwspin_lock_timeout_irqsave`. Returns the result, the handle
afterwards, and the coordination-event trace. -/
def qcom_smem_alloc (s : QcomSmem) (lockOk : Bool) (host item size : Nat) :
    (Except Err Unit × QcomSmem) × List Ev :=
  if item < SMEM_ITEM_LAST_FIXED then ((.error .EINVAL, s), [])
  else if item ≥ s.item_count then ((.error .EINVAL, s), [])
  else if ¬ lockOk then ((.error .ETIMEDOUT, s), [])
  else
    let r :=
      match routeEntry s host with
      | some entry => qcom_smem_alloc_private s.mem entry item size
      | none => qcom_smem_alloc_global s.mem item size
    ((r.1, { s with mem := r.2 }), [.acquire, .heapOp, .release])

/-- qcom_smem_get: the public lookup entry point. Returns
(region index, byte offset, size); private items live in region 0. -/
def qcom_smem_get (s : QcomSmem) (lockOk : Bool) (host item : Nat) :
    Except Err (Nat × Nat × Nat) × List Ev :=
  if item ≥ s.item_count then (.error .EINVAL, [])
  else if ¬ lockOk then (.error .ETIMEDOUT, [])
  else
    let r :=
      match routeEntry s host with
      | some entry =>
        match qcom_smem_get_private s.mem entry item with
        | .ok p => .ok (0, p.1, p.2)
        | .error er => .error er
      | none => qcom_smem_get_global s.mem s.regions item
    (r, [.acquire, .heapOp, .release])

/-- qcom_smem_get_free_space. Note: the C function takes no hwspinlock;
its trace is a bare heap access. The partition branch computes the 32-bit
difference of the two free offsets. -/
def qcom_smem_get_free_space (s : QcomSmem) (host : Nat) :
    Except Err Nat × List Ev :=
  let r :=
    match routeEntry s host with
    | some entry =>
      let phdr := s.mem.phdrAt entry.offset
      let ret := (phdr.offset_free_cached % W32 + W32 -
                  phdr.offset_free_uncached % W32) % W32
      if ret > entry.size then .error .EINVAL else .ok ret
    | none =>
      let ret := s.mem.available
      if ret > (s.regions.headD { aux_base := 0, size := 0 }).size then
        .error .EINVAL
      else .ok ret
  (r, [.heapOp])

/-- qcom_smem_partition_header: validate a partition header against its
table entry and the expected host pair. -/
def qcom_smem_partition_header (mem : Mem0) (entry : PtableEntry)
    (host0 host1 : Nat) : Option PartitionHeader :=
  let header := mem.phdrAt entry.offset
  if header.magic ≠ SMEM_PART_MAGIC then none
  else if host0 ≠ header.host0 then none
  else if host1 ≠ header.host1 then none
  else if header.size ≠ entry.size then none
  else if header.offset_free_uncached > header.size then none
  else some header

/-- qcom_smem_get_ptable: parse and validate the partition table located
SZ_4K bytes before the end of the primary region. -/
def qcom_smem_get_ptable (r : Region) : Except Err SmemPtable :=
  let ptable := r.ptableAt (r.size - SZ_4K)
  if ptable.magic ≠ SMEM_PTABLE_MAGIC then .error .ENOENT
  else if ptable.version ≠ 1 then .error .EINVAL
  else .ok ptable

/-- Positions visited by the forward walks: `VisitsUn ent endO item hdr o`
holds when the walk started at `hdr` reaches position `o` through entries
that pass the loop condition, the canary check, the item mismatch and the
forward-progress check. -/
inductive VisitsUn (ent : Nat → PrivEntry) (endO item : Nat) :
    Nat → Nat → Prop where
  | refl (o : Nat) : VisitsUn ent endO item o o
  | step (hdr o : Nat) :
      hdr < endO → hdr + PENTRY_SIZE < endO →
      (ent hdr).canary = SMEM_PRIVATE_CANARY →
      (ent hdr).item ≠ item →
      hdr < uncachedNext (ent hdr) hdr →
      VisitsUn ent endO item (uncachedNext (ent hdr) hdr) o →
      VisitsUn ent endO item hdr o

/-- Positions visited by the backward (cached) walk. -/
inductive VisitsCa (ent : Nat → PrivEntry) (cachedEnd : Int)
    (A item : Nat) : Int → Int → Prop where
  | refl (o : Int) : VisitsCa ent cachedEnd A item o o
  | step (e o : Int) :
      e > cachedEnd →
      (ent e.toNat).canary = SMEM_PRIVATE_CANARY →
      (ent e.toNat).item ≠ item →
      cachedNext (ent e.toNat) A e < e →
      VisitsCa ent cachedEnd A item (cachedNext (ent e.toNat) A e) o →
      VisitsCa ent cachedEnd A item e o

/-- All-zero private item header. -/
def zeroEntry : PrivEntry :=
  { canary := 0, item := 0, size := 0, padding_data := 0, padding_hdr := 0 }

/-- All-zero global TOC slot. -/
def zeroGlobal : GlobalEntry :=
  { allocated := 0, offset := 0, size := 0, aux_base := 0 }

/-- Partition header of an empty 4 KiB partition (no items yet on either
list; the cached free offset equals the partition size). -/
def phdrEmpty : PartitionHeader :=
  { magic := SMEM_PART_MAGIC, host0 := 0, host1 := 1, size := 4096
    offset_free_uncached := PHDR_SIZE, offset_free_cached := 4096 }

/-- Region-0 memory holding one empty private partition at offset 0. -/
def memEmptyPart : Mem0 :=
  { free_offset := 0, available := 0, toc := fun _ => zeroGlobal
    phdrAt := fun _ => phdrEmpty, entAt := fun _ => zeroEntry }

/-- Partition table entry for the empty partition. -/
def entryEmpty : PtableEntry :=
  { offset := 0, size := 4096, flags := 0, host0 := 0, host1 := 1
    cacheline := 16 }

/-- Handle with no partitions: every request routes to the legacy global
heap. -/
def smemGlobalOnly : QcomSmem :=
  { item_count := 512, ptable_entries := fun _ => none
    global_partition_entry := none, regions := [{ aux_base := 0, size := 1024 }]
    mem := memEmptyPart }

/-- Handle in which host 1 is routed to the empty private partition. -/
def smemOnePart : QcomSmem :=
  { item_count := 512
    ptable_entries := fun h => if h = 1 then some entryEmpty else none
    global_partition_entry := none
    regions := [{ aux_base := 0, size := 1024 }]
    mem := memEmptyPart }

/-- Malformed partition state for the free-offset invariant: the uncached
free offset (47) lies 15 bytes past the last whole item slot, and the
cached free offset is 48, so `uncached <= cached` holds, yet the walk
exits at offset 32 and a 0-byte allocation is accepted there. -/
def phdrRagged : PartitionHeader :=
  { magic := SMEM_PART_MAGIC, host0 := 0, host1 := 1, size := 64
    offset_free_uncached := 47, offset_free_cached := 48 }

def memRagged : Mem0 :=
  { memEmptyPart with phdrAt := fun _ => phdrRagged }

def entryRagged : PtableEntry :=
  { offset := 0, size := 64, flags := 0, host0 := 0, host1 := 1
    cacheline := 16 }

/-- Partition header whose magic is wrong but whose free offsets are sane:
the private allocator accepts it. -/
def phdrBadMagic : PartitionHeader :=
  { phdrEmpty with magic := [0, 0, 0, 0] }

def memBadMagic : Mem0 :=
  { memEmptyPart with phdrAt := fun _ => phdrBadMagic }

/-- Cached-region item header for item 100 (16 data bytes just below it). -/
def cachedItemEntry : PrivEntry :=
  { canary := SMEM_PRIVATE_CANARY, item := 100, size := 16
    padding_data := 0, padding_hdr := 0 }

/-- A 96-byte partition whose uncached list is empty with only 32 bytes of
gap (offsets 32..64), and whose cached region holds item 100 (header at
offset 80, data at 64..80). -/
def phdrCached : PartitionHeader :=
  { magic := SMEM_PART_MAGIC, host0 := 0, host1 := 1, size := 96
    offset_free_uncached := 32, offset_free_cached := 64 }

def memCached : Mem0 :=
  { free_offset := 0, available := 0, toc := fun _ => zeroGlobal
    phdrAt := fun _ => phdrCached
    entAt := fun o => if o = 80 then cachedItemEntry else zeroEntry }

def entryCached : PtableEntry :=
  { offset := 0, size := 96, flags := 0, host0 := 0, host1 := 1
    cacheline := 16 }

/-- Private item header with a corrupt canary. -/
def badCanaryEntry : PrivEntry :=
  { canary := 0, item := 42, size := 8, padding_data := 0, padding_hdr := 0 }

/-- Partition memory whose first uncached slot (offset 32) has a corrupt
canary, followed by a valid entry for item 9 at offset 56. -/
def memBadCanary : Mem0 :=
  { free_offset := 0, available := 0, toc := fun _ => zeroGlobal
    phdrAt := fun _ =>
      { magic := SMEM_PART_MAGIC, host0 := 0, host1 := 1, size := 4096
        offset_free_uncached := 80, offset_free_cached := 4096 }
    entAt := fun o =>
      if o = 32 then badCanaryEntry
      else if o = 56 then
        { canary := SMEM_PRIVATE_CANARY, item := 9, size := 8
          padding_data := 0, padding_hdr := 0 }
      else zeroEntry }



/-- Item header for a bootstrap-style item 5: 8 stored bytes of which 3 are
padding, so 5 usable bytes. -/
def item5Entry : PrivEntry :=
  { canary := SMEM_PRIVATE_CANARY, item := 5, size := 8, padding_data := 3
    padding_hdr := 0 }

/-- Partition memory whose uncached list holds exactly item 5. -/
def memItem5 : Mem0 :=
  { free_offset := 0, available := 0, toc := fun _ => zeroGlobal
    phdrAt := fun _ => { phdrEmpty with offset_free_uncached := 56 }
    entAt := fun o => if o = 32 then item5Entry else zeroEntry }

/-- Handle in which host 1 is routed to the partition holding item 5. -/
def smemItem5 : QcomSmem :=
  { item_count := 512
    ptable_entries := fun h => if h = 1 then some entryEmpty else none
    global_partition_entry := none
    regions := [{ aux_base := 0, size := 1024 }]
    mem := memItem5 }

theorem land_highmask (k n : Nat) (hk : k ≤ 64) (h : n < 2 ^ 64) :
    n &&& (2 ^ 64 - 2 ^ k) = 2 ^ k * (n / 2 ^ k) := by
  have e1 : (2:Nat) ^ k * 2 ^ (64 - k) = 2 ^ 64 := by
    rw [← pow_add]; congr 1; omega
  have hM : (2:Nat) ^ 64 - 2 ^ k = 2 ^ k * (2 ^ (64 - k) - 1) := by
    have hp := Nat.mul_pred (2 ^ k) (2 ^ (64 - k))
    rw [Nat.pred_eq_sub_one] at hp
    rw [hp, e1]
  apply Nat.eq_of_testBit_eq
  intro i
  rw [hM, Nat.testBit_and, Nat.testBit_mul_pow_two, Nat.testBit_mul_pow_two,
    Nat.testBit_two_pow_sub_one, ← Nat.shiftRight_eq_div_pow,
    Nat.testBit_shiftRight]
  by_cases hik : k ≤ i
  · have hplus : k + (i - k) = i := by omega
    rw [hplus]
    by_cases hi64 : i < 64
    · have hlt : i - k < 64 - k := by omega
      simp [ge_iff_le, hik, hlt]
    · have hbf : n.testBit i = false :=
        Nat.testBit_lt_two_pow
          (lt_of_lt_of_le h (Nat.pow_le_pow_right (by norm_num) (by omega)))
      have hnlt : ¬ (i - k < 64 - k) := by omega
      simp [ge_iff_le, hik, hnlt, hbf]
  · simp [ge_iff_le, hik]

theorem kALIGN_pow2 (x k : Nat) (hk : k ≤ 64) (hk1 : 1 ≤ k)
    (hx : x + (2 ^ k - 1) < 2 ^ 64) :
    kALIGN x (2 ^ k) = 2 ^ k * ((x + (2 ^ k - 1)) / 2 ^ k) := by
  have hle : (2:Nat) ^ k ≤ 2 ^ 64 := Nat.pow_le_pow_right (by norm_num) hk
  have hone : 1 ≤ (2:Nat) ^ k := Nat.one_le_two_pow
  unfold kALIGN W64
  have h1 : (2 ^ k + 2 ^ 64 - 1) % 2 ^ 64 = 2 ^ k - 1 := by
    have he : 2 ^ k + 2 ^ 64 - 1 = (2 ^ k - 1) + 2 ^ 64 := by omega
    rw [he, Nat.add_mod_right, Nat.mod_eq_of_lt (by omega)]
  rw [h1, Nat.mod_eq_of_lt hx]
  have h3 : (2 ^ 64 - 1) - (2 ^ k - 1) = 2 ^ 64 - 2 ^ k := by omega
  rw [h3]
  exact land_highmask k _ hk hx

theorem kALIGN_eight (s : Nat) (hs : s + 7 < 2 ^ 64) :
    kALIGN s 8 = 8 * ((s + 7) / 8) := by
  have := kALIGN_pow2 s 3 (by norm_num) (by norm_num) (by norm_num; omega)
  norm_num at this
  exact this

theorem kALIGN_eight_bounds (s : Nat) (hs : s + 7 < 2 ^ 64) :
    s ≤ kALIGN s 8 ∧ kALIGN s 8 ≤ s + 7 := by
  rw [kALIGN_eight s hs]
  have h1 := Nat.div_add_mod (s + 7) 8
  have h2 : (s + 7) % 8 < 8 := Nat.mod_lt _ (by norm_num)
  omega

theorem allocWalk_start_le (ent : Nat → PrivEntry) (endO item hdr h : Nat)
    (hw : allocWalk ent endO item hdr = .ok h) : hdr ≤ h := by
  revert hw
  induction hdr using allocWalk.induct ent endO item with
  | case1 x hcond hbad =>
    intro hw
    unfold allocWalk at hw
    simp [hcond, hbad] at hw
  | case2 x hcond hbad hit =>
    intro hw
    unfold allocWalk at hw
    simp [hcond, hbad, hit] at hw
  | case3 x hcond hbad hit hprog =>
    intro hw
    unfold allocWalk at hw
    simp [hcond, hbad, hit, hprog] at hw
  | case4 x hcond hbad hit hprog ih =>
    intro hw
    unfold allocWalk at hw
    rw [dif_pos hcond, if_neg (by simpa using hbad), if_neg hit, dif_neg hprog] at hw
    have := ih hw
    simp only [not_le] at hprog
    omega
  | case5 x hcond =>
    intro hw
    unfold allocWalk at hw
    simp [hcond] at hw
    omega

theorem allocWalk_to_getWalkUn (ent : Nat → PrivEntry) (endO ps item hdr h : Nat)
    (hw : allocWalk ent endO item hdr = .ok h) :
    getWalkUn ent endO ps item hdr = .ok (.inr h) := by
  revert hw
  induction hdr using allocWalk.induct ent endO item with
  | case1 x hcond hbad =>
    intro hw
    unfold allocWalk at hw
    simp [hcond, hbad] at hw
  | case2 x hcond hbad hit =>
    intro hw
    unfold allocWalk at hw
    simp [hcond, hbad, hit] at hw
  | case3 x hcond hbad hit hprog =>
    intro hw
    unfold allocWalk at hw
    simp [hcond, hbad, hit, hprog] at hw
  | case4 x hcond hbad hit hprog ih =>
    intro hw
    rw [allocWalk, dif_pos hcond, if_neg (by simpa using hbad), if_neg hit,
      dif_neg hprog] at hw
    rw [getWalkUn, dif_pos hcond, if_neg (by simpa using hbad), if_neg hit,
      dif_neg hprog]
    exact ih hw
  | case5 x hcond =>
    intro hw
    rw [allocWalk, dif_neg hcond] at hw
    rw [getWalkUn, dif_neg hcond]
    simpa using hw

theorem allocWalk_update_exists (ent : Nat → PrivEntry) (endO item hdr h : Nat)
    (newE : PrivEntry) (endOq : Nat)
    (hw : allocWalk ent endO item hdr = .ok h)
    (hend : endO ≤ endOq) (hh : h + PENTRY_SIZE < endOq)
    (hc : newE.canary = SMEM_PRIVATE_CANARY) (hi : newE.item = item) :
    allocWalk (fun o => if o = h then newE else ent o) endOq item hdr =
      .error .EEXIST := by
  revert hw
  induction hdr using allocWalk.induct ent endO item with
  | case1 x hcond hbad =>
    intro hw
    unfold allocWalk at hw
    simp [hcond, hbad] at hw
  | case2 x hcond hbad hit =>
    intro hw
    unfold allocWalk at hw
    simp [hcond, hbad, hit] at hw
  | case3 x hcond hbad hit hprog =>
    intro hw
    unfold allocWalk at hw
    simp [hcond, hbad, hit, hprog] at hw
  | case4 x hcond hbad hit hprog ih =>
    intro hw
    rw [allocWalk, dif_pos hcond, if_neg (by simpa using hbad), if_neg hit,
      dif_neg hprog] at hw
    have hxlt : x < h := by
      have h1 := allocWalk_start_le ent endO item _ _ hw
      simp only [not_le] at hprog
      omega
    rw [allocWalk, dif_pos ⟨by omega, by
        have := hcond.2; omega⟩]
    rw [if_neg (Nat.ne_of_lt hxlt)]
    rw [if_neg (by simpa using hbad), if_neg hit, dif_neg hprog]
    exact ih hw
  | case5 x hcond =>
    intro hw
    rw [allocWalk, dif_neg hcond] at hw
    simp only [Except.ok.injEq] at hw
    subst hw
    rw [allocWalk, dif_pos ⟨by omega, hh⟩, if_pos rfl, if_neg (by simp [hc]),
      if_pos hi]

theorem getWalkUn_update_found (ent : Nat → PrivEntry) (endO ps item hdr h : Nat)
    (newE : PrivEntry) (endOq : Nat)
    (hw : allocWalk ent endO item hdr = .ok h)
    (hend : endO ≤ endOq) (hh : h + PENTRY_SIZE < endOq)
    (hc : newE.canary = SMEM_PRIVATE_CANARY) (hi : newE.item = item)
    (hsz : newE.size < ps ∧ newE.padding_data < newE.size)
    (hr1 : (h + PENTRY_SIZE + newE.padding_hdr) % W64 ≥ h)
    (hr2 : ((h + PENTRY_SIZE + newE.padding_hdr) % W64 +
        (newE.size - newE.padding_data)) % W64 ≥
        (h + PENTRY_SIZE + newE.padding_hdr) % W64)
    (hr3 : ((h + PENTRY_SIZE + newE.padding_hdr) % W64 +
        (newE.size - newE.padding_data)) % W64 ≤ endOq) :
    getWalkUn (fun o => if o = h then newE else ent o) endOq ps item hdr =
      .ok (.inl ((h + PENTRY_SIZE + newE.padding_hdr) % W64,
        newE.size - newE.padding_data)) := by
  revert hw
  induction hdr using allocWalk.induct ent endO item with
  | case1 x hcond hbad =>
    intro hw
    unfold allocWalk at hw
    simp [hcond, hbad] at hw
  | case2 x hcond hbad hit =>
    intro hw
    unfold allocWalk at hw
    simp [hcond, hbad, hit] at hw
  | case3 x hcond hbad hit hprog =>
    intro hw
    unfold allocWalk at hw
    simp [hcond, hbad, hit, hprog] at hw
  | case4 x hcond hbad hit hprog ih =>
    intro hw
    rw [allocWalk, dif_pos hcond, if_neg (by simpa using hbad), if_neg hit,
      dif_neg hprog] at hw
    have hxlt : x < h := by
      have h1 := allocWalk_start_le ent endO item _ _ hw
      simp only [not_le] at hprog
      omega
    rw [getWalkUn, dif_pos ⟨by omega, by
        have := hcond.2; omega⟩]
    rw [if_neg (Nat.ne_of_lt hxlt)]
    rw [if_neg (by simpa using hbad), if_neg hit, dif_neg hprog]
    exact ih hw
  | case5 x hcond =>
    intro hw
    rw [allocWalk, dif_neg hcond] at hw
    simp only [Except.ok.injEq] at hw
    subst hw
    rw [getWalkUn, dif_pos ⟨by omega, hh⟩, if_pos rfl, if_neg (by simp [hc]),
      if_pos hi]
    rw [if_pos hsz, if_pos ⟨hr1, hr2, hr3⟩]

theorem visitsUn_le (ent : Nat → PrivEntry) (endO item hdr o : Nat)
    (hv : VisitsUn ent endO item hdr o) : hdr ≤ o := by
  induction hv with
  | refl p => exact le_refl p
  | step hdr o hlt hlt2 hcan hitem hprog hvrec ih => omega

theorem visitsUn_allocWalk_canary (ent entq : Nat → PrivEntry)
    (endO item hdr o : Nat)
    (hv : VisitsUn ent endO item hdr o)
    (h1 : o < endO) (h2 : o + PENTRY_SIZE < endO)
    (hbad : (ent o).canary ≠ SMEM_PRIVATE_CANARY)
    (hagree : ∀ q, q ≤ o → entq q = ent q) :
    allocWalk entq endO item hdr = .error .EINVAL := by
  induction hv with
  | refl p =>
    rw [allocWalk, dif_pos ⟨h1, h2⟩, hagree p (le_refl p), if_pos hbad]
  | step hdr o hlt hlt2 hcan hitem hprog hvrec ih =>
    have hle := visitsUn_le ent endO item _ _ hvrec
    rw [allocWalk, dif_pos ⟨hlt, hlt2⟩, hagree hdr (by omega),
      if_neg (by simp [hcan]), if_neg hitem, dif_neg (by omega)]
    exact ih h1 h2 hbad hagree

theorem visitsUn_getWalkUn_canary (ent entq : Nat → PrivEntry)
    (endO ps item hdr o : Nat)
    (hv : VisitsUn ent endO item hdr o)
    (h1 : o < endO) (h2 : o + PENTRY_SIZE < endO)
    (hbad : (ent o).canary ≠ SMEM_PRIVATE_CANARY)
    (hagree : ∀ q, q ≤ o → entq q = ent q) :
    getWalkUn entq endO ps item hdr = .error .EINVAL := by
  induction hv with
  | refl p =>
    rw [getWalkUn, dif_pos ⟨h1, h2⟩, hagree p (le_refl p), if_pos hbad]
  | step hdr o hlt hlt2 hcan hitem hprog hvrec ih =>
    have hle := visitsUn_le ent endO item _ _ hvrec
    rw [getWalkUn, dif_pos ⟨hlt, hlt2⟩, hagree hdr (by omega),
      if_neg (by simp [hcan]), if_neg hitem, dif_neg (by omega)]
    exact ih h1 h2 hbad hagree

theorem visitsCa_ge (ent : Nat → PrivEntry) (cachedEnd : Int) (A item : Nat)
    (e o : Int) (hv : VisitsCa ent cachedEnd A item e o) : o ≤ e := by
  induction hv with
  | refl p => exact le_refl p
  | step e o hgt hcan hitem hprog hvrec ih => omega

theorem visitsCa_getWalkCa_canary (ent entq : Nat → PrivEntry)
    (cachedEnd : Int) (A ps item : Nat) (e o : Int)
    (hv : VisitsCa ent cachedEnd A item e o)
    (h1 : o > cachedEnd)
    (hbad : (ent o.toNat).canary ≠ SMEM_PRIVATE_CANARY)
    (hagree : ∀ q : Nat, o ≤ (q : Int) → entq q = ent q) :
    getWalkCa entq cachedEnd A ps item e = .error .EINVAL := by
  induction hv with
  | refl p =>
    rw [getWalkCa, dif_pos h1, hagree p.toNat (Int.self_le_toNat p),
      if_pos hbad]
  | step e o hgt hcan hitem hprog hvrec ih =>
    have hle := visitsCa_ge ent cachedEnd A item _ _ hvrec
    have hagq : entq e.toNat = ent e.toNat := by
      apply hagree
      calc o ≤ e := by omega
        _ ≤ (e.toNat : Int) := Int.self_le_toNat e
    rw [getWalkCa, dif_pos hgt, hagq, if_neg (by simp [hcan]), if_neg hitem,
      dif_neg (by omega)]
    exact ih h1 hbad hagree



/-- C4: once the forward walk has reached the free boundary, allocate
computes the required size as the item header size plus the payload rounded
up to 8 bytes, fails with ENOSPC exactly when the forward free offset plus
this required size would cross past the cached free offset, and otherwise
succeeds, writing the new header at the boundary and advancing the forward
free offset by exactly the required size. -/
theorem C4_required_size_check (mem : Mem0) (entry : PtableEntry)
    (item size : Nat)
    (hpre1 : (mem.phdrAt entry.offset).offset_free_uncached ≤
      (mem.phdrAt entry.offset).offset_free_cached)
    (hpre2 : (mem.phdrAt entry.offset).offset_free_cached ≤ entry.size)
    (hcw : (mem.phdrAt entry.offset).offset_free_cached < W32)
    (hbase : entry.offset < W32)
    (hsize : size + PENTRY_SIZE + 7 < W32)
    (hwalk : allocWalk mem.entAt
      (entry.offset + (mem.phdrAt entry.offset).offset_free_uncached) item
      (entry.offset + PHDR_SIZE) =
      .ok (entry.offset + (mem.phdrAt entry.offset).offset_free_uncached)) :
    ((qcom_smem_alloc_private mem entry item size).1 = .error .ENOSPC ↔
      (mem.phdrAt entry.offset).offset_free_cached <
        (mem.phdrAt entry.offset).offset_free_uncached +
          (PENTRY_SIZE + kALIGN size 8)) ∧
    ((mem.phdrAt entry.offset).offset_free_uncached +
        (PENTRY_SIZE + kALIGN size 8) ≤
        (mem.phdrAt entry.offset).offset_free_cached →
      (qcom_smem_alloc_private mem entry item size).1 = .ok () ∧
      ((qcom_smem_alloc_private mem entry item size).2.phdrAt
          entry.offset).offset_free_uncached =
        (mem.phdrAt entry.offset).offset_free_uncached +
          (PENTRY_SIZE + kALIGN size 8) ∧
      (qcom_smem_alloc_private mem entry item size).2.entAt
          (entry.offset + (mem.phdrAt entry.offset).offset_free_uncached) =
        { canary := SMEM_PRIVATE_CANARY, item := item % W16
          size := kALIGN size 8, padding_data := kALIGN size 8 - size
          padding_hdr := 0 } ∧
      (∀ o, o ≠ entry.offset +
          (mem.phdrAt entry.offset).offset_free_uncached →
        (qcom_smem_alloc_private mem entry item size).2.entAt o =
          mem.entAt o) ∧
      (∀ o, o ≠ entry.offset →
        (qcom_smem_alloc_private mem entry item size).2.phdrAt o =
          mem.phdrAt o)) := by
  have h32 : W32 = 4294967296 := by norm_num [W32]
  have h64 : W64 = 18446744073709551616 := by norm_num [W64]
  have h16 : W16 = 65536 := by norm_num [W16]
  have hpe : PENTRY_SIZE = 16 := rfl
  have hks := kALIGN_eight_bounds size (by omega)
  set base := entry.offset with hbdef
  set uOff := (mem.phdrAt base).offset_free_uncached with hudef
  set cOff := (mem.phdrAt base).offset_free_cached with hcdef
  have halloc : (PENTRY_SIZE + kALIGN size 8) % W64 =
      PENTRY_SIZE + kALIGN size 8 := by
    apply Nat.mod_eq_of_lt; omega
  have hsum : (base + uOff + (PENTRY_SIZE + kALIGN size 8)) % W64 =
      base + uOff + (PENTRY_SIZE + kALIGN size 8) := by
    apply Nat.mod_eq_of_lt; omega
  have hstored : kALIGN size 8 % W32 = kALIGN size 8 :=
    Nat.mod_eq_of_lt (by omega)
  have hpd : (kALIGN size 8 + W64 - size % W64) % W64 % W16 =
      kALIGN size 8 - size := by
    rw [Nat.mod_eq_of_lt (show size < W64 by omega)]
    have he : kALIGN size 8 + W64 - size = (kALIGN size 8 - size) + W64 := by
      omega
    rw [he, Nat.add_mod_right,
      Nat.mod_eq_of_lt (show kALIGN size 8 - size < W64 by omega),
      Nat.mod_eq_of_lt (show kALIGN size 8 - size < W16 by omega)]
  have hprelim : ¬ (¬ (base ≤ base + uOff ∧ base + uOff ≤ base + cOff) ∨
      base + cOff > base + entry.size) := by
    push_neg
    exact ⟨⟨by omega, by omega⟩, by omega⟩
  unfold qcom_smem_alloc_private
  rw [if_neg hprelim]
  simp only [hwalk]
  rw [if_neg (lt_irrefl (base + uOff))]
  simp only [halloc, hsum]
  by_cases hsp : base + cOff < base + uOff + (PENTRY_SIZE + kALIGN size 8)
  · rw [if_pos hsp]
    refine ⟨⟨fun _ => by omega, fun _ => rfl⟩, fun hc => by omega⟩
  · rw [if_neg hsp]
    refine ⟨⟨fun habs => by simp at habs, fun hcc => by omega⟩, fun hc => ?_⟩
    refine ⟨rfl, ?_, ?_, ?_, ?_⟩
    · simp [halloc,
        Nat.mod_eq_of_lt (show uOff + (PENTRY_SIZE + kALIGN size 8) < W32
          by omega)]
    · simp [hstored, hpd]
    · intro o ho
      simp [ho]
    · intro o ho
      simp [ho]

theorem alloc_private_cases (mem : Mem0) (entry : PtableEntry)
    (item size : Nat) :
    (qcom_smem_alloc_private mem entry item size).2 = mem ∨
    (qcom_smem_alloc_private mem entry item size).1 = .ok () := by
  unfold qcom_smem_alloc_private
  dsimp only
  split
  · left; rfl
  · split
    · left; rfl
    · split
      · left; rfl
      · split
        · left; rfl
        · right; rfl

theorem alloc_private_error_unchanged (mem : Mem0) (entry : PtableEntry)
    (item size : Nat) (e : Err)
    (he : (qcom_smem_alloc_private mem entry item size).1 = .error e) :
    (qcom_smem_alloc_private mem entry item size).2 = mem := by
  rcases alloc_private_cases mem entry item size with h | h
  · exact h
  · rw [h] at he; cases he

theorem alloc_global_cases (mem : Mem0) (item size : Nat) :
    (qcom_smem_alloc_global mem item size).2 = mem ∨
    (qcom_smem_alloc_global mem item size).1 = .ok () := by
  unfold qcom_smem_alloc_global
  dsimp only
  split
  · left; rfl
  · split
    · left; rfl
    · right; rfl

theorem alloc_global_error_unchanged (mem : Mem0) (item size : Nat) (e : Err)
    (he : (qcom_smem_alloc_global mem item size).1 = .error e) :
    (qcom_smem_alloc_global mem item size).2 = mem := by
  rcases alloc_global_cases mem item size with h | h
  · exact h
  · rw [h] at he; cases he

/-- C7: the invariant offset_free_uncached <= offset_free_cached is
preserved by qcom_smem_alloc_private, whether the call succeeds or fails.
Amended: provided the forward walk exits exactly at the uncached free offset
(a well-formed forward list); on a ragged state whose free offset lies
strictly inside a trailing partial slot, a successful allocation can push the
forward offset past the cached offset, see the counterexample. -/
theorem C7_invariant_preserved (mem : Mem0) (entry : PtableEntry)
    (item size : Nat)
    (hpre1 : (mem.phdrAt entry.offset).offset_free_uncached ≤
      (mem.phdrAt entry.offset).offset_free_cached)
    (hcw : (mem.phdrAt entry.offset).offset_free_cached < W32)
    (hbase : entry.offset < W32)
    (hsize : size + PENTRY_SIZE + 7 < W32)
    (hwalk : allocWalk mem.entAt
      (entry.offset + (mem.phdrAt entry.offset).offset_free_uncached) item
      (entry.offset + PHDR_SIZE) =
      .ok (entry.offset + (mem.phdrAt entry.offset).offset_free_uncached)) :
    ((qcom_smem_alloc_private mem entry item size).2.phdrAt
        entry.offset).offset_free_uncached ≤
      ((qcom_smem_alloc_private mem entry item size).2.phdrAt
        entry.offset).offset_free_cached := by
  have h32 : W32 = 4294967296 := by norm_num [W32]
  have h64 : W64 = 18446744073709551616 := by norm_num [W64]
  have hpe : PENTRY_SIZE = 16 := rfl
  have hks := kALIGN_eight_bounds size (by omega)
  set base := entry.offset with hbdef
  set uOff := (mem.phdrAt base).offset_free_uncached with hudef
  set cOff := (mem.phdrAt base).offset_free_cached with hcdef
  have halloc : (PENTRY_SIZE + kALIGN size 8) % W64 =
      PENTRY_SIZE + kALIGN size 8 := by
    apply Nat.mod_eq_of_lt; omega
  have hsum : (base + uOff + (PENTRY_SIZE + kALIGN size 8)) % W64 =
      base + uOff + (PENTRY_SIZE + kALIGN size 8) := by
    apply Nat.mod_eq_of_lt; omega
  by_cases hpl : ¬ (base ≤ base + uOff ∧ base + uOff ≤ base + cOff) ∨
      base + cOff > base + entry.size
  · unfold qcom_smem_alloc_private
    rw [if_pos hpl]
    exact hpre1
  · unfold qcom_smem_alloc_private
    rw [if_neg hpl]
    simp only [hwalk]
    rw [if_neg (lt_irrefl (base + uOff))]
    simp only [halloc, hsum]
    by_cases hsp : base + cOff < base + uOff + (PENTRY_SIZE + kALIGN size 8)
    · rw [if_pos hsp]
      exact hpre1
    · rw [if_neg hsp]
      dsimp only
      rw [if_pos rfl]
      dsimp only
      rw [← hbdef, ← hudef, ← hcdef,
        Nat.mod_eq_of_lt (show uOff + (PENTRY_SIZE + kALIGN size 8) < W32
          by omega)]
      omega

/-- C7 counterexample: on a state with uncached offset 47 and cached offset 48 (invariant holds), a 0-byte allocation succeeds at offset 32 and pushes the uncached offset to 63 > 48, violating the invariant. -/
theorem C7_counterexample :
    (memRagged.phdrAt entryRagged.offset).offset_free_uncached ≤
      (memRagged.phdrAt entryRagged.offset).offset_free_cached ∧
    (qcom_smem_alloc_private memRagged entryRagged 10 0).1 = .ok () ∧
    ((qcom_smem_alloc_private memRagged entryRagged 10 0).2.phdrAt
        entryRagged.offset).offset_free_uncached = 63 ∧
    ¬ ((qcom_smem_alloc_private memRagged entryRagged 10 0).2.phdrAt
          entryRagged.offset).offset_free_uncached ≤
        ((qcom_smem_alloc_private memRagged entryRagged 10 0).2.phdrAt
          entryRagged.offset).offset_free_cached := by
  have hk0 : kALIGN 0 8 = 0 := by decide
  have hw : allocWalk (fun _ => zeroEntry) 47 10 32 = .ok 32 := by
    rw [allocWalk, dif_neg (by norm_num [PENTRY_SIZE])]
  refine ⟨by norm_num [memRagged, phdrRagged, entryRagged, memEmptyPart], ?_, ?_, ?_⟩ <;>
    simp [qcom_smem_alloc_private, memRagged, phdrRagged, entryRagged,
      memEmptyPart, PHDR_SIZE, PENTRY_SIZE, hk0, hw, W64, W32, W16]

/-- C4 witness: allocating 100 bytes in an empty 4 KiB partition succeeds and advances the uncached free offset from 32 to 152 = 32 + 16 + 104. -/
theorem C4_witness :
    (qcom_smem_alloc_private memEmptyPart entryEmpty 10 100).1 = .ok () ∧
    ((qcom_smem_alloc_private memEmptyPart entryEmpty 10 100).2.phdrAt
        entryEmpty.offset).offset_free_uncached = 152 := by
  have hk : kALIGN 100 8 = 104 := by decide
  have hw : allocWalk memEmptyPart.entAt
      (entryEmpty.offset +
        (memEmptyPart.phdrAt entryEmpty.offset).offset_free_uncached) 10
      (entryEmpty.offset + PHDR_SIZE) =
      .ok (entryEmpty.offset +
        (memEmptyPart.phdrAt entryEmpty.offset).offset_free_uncached) := by
    rw [allocWalk, dif_neg (by norm_num [PENTRY_SIZE, PHDR_SIZE, memEmptyPart,
      entryEmpty, phdrEmpty])]
    norm_num [memEmptyPart, entryEmpty, phdrEmpty, PHDR_SIZE]
  have h := C4_required_size_check memEmptyPart entryEmpty 10 100
    (by norm_num [memEmptyPart, entryEmpty, phdrEmpty, PHDR_SIZE])
    (by norm_num [memEmptyPart, entryEmpty, phdrEmpty])
    (by norm_num [memEmptyPart, entryEmpty, phdrEmpty, W32])
    (by norm_num [entryEmpty, W32])
    (by norm_num [PENTRY_SIZE, W32])
    hw
  have h2 := h.2 (by norm_num [memEmptyPart, entryEmpty, phdrEmpty,
    PENTRY_SIZE, PHDR_SIZE, hk])
  refine ⟨h2.1, ?_⟩
  have := h2.2.1
  rw [this]
  norm_num [memEmptyPart, entryEmpty, phdrEmpty, PENTRY_SIZE, PHDR_SIZE, hk]

/-- C2: the magic / peer-pair / size / free-offset checks of section 4.2 are
exactly those of qcom_smem_partition_header (first conjunct, an if-and-only-if
characterisation). Amended: qcom_smem_alloc_private does not repeat them on
each call — its result is invariant under arbitrary magic and host fields in
the partition header (second conjunct); only the free-offset sanity check is
performed per call. -/
theorem C2_validation_location :
    (∀ (mem : Mem0) (entry : PtableEntry) (h0 h1 : Nat),
      qcom_smem_partition_header mem entry h0 h1 = none ↔
        ((mem.phdrAt entry.offset).magic ≠ SMEM_PART_MAGIC ∨
         h0 ≠ (mem.phdrAt entry.offset).host0 ∨
         h1 ≠ (mem.phdrAt entry.offset).host1 ∨
         (mem.phdrAt entry.offset).size ≠ entry.size ∨
         (mem.phdrAt entry.offset).offset_free_uncached >
           (mem.phdrAt entry.offset).size)) ∧
    (∀ (mem : Mem0) (entry : PtableEntry) (item size : Nat) (mg : List Nat)
        (ha hb : Nat),
      (qcom_smem_alloc_private
          { mem with phdrAt := fun o =>
              if o = entry.offset then
                { mem.phdrAt o with magic := mg, host0 := ha, host1 := hb }
              else mem.phdrAt o }
          entry item size).1 =
        (qcom_smem_alloc_private mem entry item size).1) := by
  constructor
  · intro mem entry h0 h1
    unfold qcom_smem_partition_header
    dsimp only
    by_cases c1 : (mem.phdrAt entry.offset).magic ≠ SMEM_PART_MAGIC
    · simp [c1]
    · by_cases c2 : h0 ≠ (mem.phdrAt entry.offset).host0
      · simp [c1, c2]
      · by_cases c3 : h1 ≠ (mem.phdrAt entry.offset).host1
        · simp [c1, c2, c3]
        · by_cases c4 : (mem.phdrAt entry.offset).size ≠ entry.size
          · simp [c1, c2, c3, c4]
          · by_cases c5 : (mem.phdrAt entry.offset).offset_free_uncached >
                (mem.phdrAt entry.offset).size
            · simp [c1, c2, c3, c4, c5]
            · simp [c1, c2, c3, c4, c5]
  · intro mem entry item size mg ha hb
    unfold qcom_smem_alloc_private
    dsimp only
    rw [if_pos rfl]
    dsimp only
    by_cases hC : ¬ (entry.offset ≤
          entry.offset + (mem.phdrAt entry.offset).offset_free_uncached ∧
        entry.offset + (mem.phdrAt entry.offset).offset_free_uncached ≤
          entry.offset + (mem.phdrAt entry.offset).offset_free_cached) ∨
        entry.offset + (mem.phdrAt entry.offset).offset_free_cached >
          entry.offset + entry.size
    · rw [if_pos hC, if_pos hC]
    · rw [if_neg hC, if_neg hC]
      cases hwv : allocWalk mem.entAt
          (entry.offset + (mem.phdrAt entry.offset).offset_free_uncached)
          item (entry.offset + PHDR_SIZE) with
      | error e => simp only [hwv]
      | ok hdr =>
        simp only [hwv]
        by_cases hh : hdr >
            entry.offset + (mem.phdrAt entry.offset).offset_free_uncached
        · rw [if_pos hh, if_pos hh]
        · rw [if_neg hh, if_neg hh]
          by_cases hs : (hdr + (PENTRY_SIZE + kALIGN size 8) % W64) % W64 >
              entry.offset + (mem.phdrAt entry.offset).offset_free_cached
          · rw [if_pos hs, if_pos hs]
          · rw [if_neg hs, if_neg hs]

/-- C2 counterexample: on a partition whose header magic is wrong, the validator fails, yet allocate succeeds — allocate does not validate the header magic per call. -/
theorem C2_counterexample :
    (memBadMagic.phdrAt entryEmpty.offset).magic ≠ SMEM_PART_MAGIC ∧
    qcom_smem_partition_header memBadMagic entryEmpty 0 1 = none ∧
    (qcom_smem_alloc_private memBadMagic entryEmpty 10 100).1 = .ok () := by
  have hk : kALIGN 100 8 = 104 := by decide
  have hw : allocWalk (fun _ => zeroEntry) 32 10 32 = .ok 32 := by
    rw [allocWalk, dif_neg (by norm_num)]
  refine ⟨by decide, by decide, ?_⟩
  simp [qcom_smem_alloc_private, memBadMagic, phdrBadMagic, phdrEmpty,
    memEmptyPart, entryEmpty, PHDR_SIZE, PENTRY_SIZE, hk, hw, W64, W32, W16]

/-- C7 witness: the free-offset invariant holds after a successful 100-byte allocation in an empty partition. -/
theorem C7_witness :
    (memEmptyPart.phdrAt entryEmpty.offset).offset_free_uncached ≤
      (memEmptyPart.phdrAt entryEmpty.offset).offset_free_cached ∧
    ((qcom_smem_alloc_private memEmptyPart entryEmpty 10 100).2.phdrAt
        entryEmpty.offset).offset_free_uncached ≤
      ((qcom_smem_alloc_private memEmptyPart entryEmpty 10 100).2.phdrAt
        entryEmpty.offset).offset_free_cached := by
  refine ⟨by norm_num [memEmptyPart, entryEmpty, phdrEmpty, PHDR_SIZE], ?_⟩
  apply C7_invariant_preserved memEmptyPart entryEmpty 10 100
    (by norm_num [memEmptyPart, entryEmpty, phdrEmpty, PHDR_SIZE])
    (by norm_num [memEmptyPart, entryEmpty, phdrEmpty, W32])
    (by norm_num [entryEmpty, W32])
    (by norm_num [PENTRY_SIZE, W32])
  rw [allocWalk, dif_neg (by norm_num [PENTRY_SIZE, PHDR_SIZE, memEmptyPart,
    entryEmpty, phdrEmpty])]
  norm_num [memEmptyPart, entryEmpty, phdrEmpty, PHDR_SIZE]

/-- C8: the partition table reader parses the table at exactly
region_size − 4096 bytes into the primary region; it fails if and only if
the 4-byte magic differs from $TOC or the version field differs from 1; on
success it returns the parsed table unchanged; and its result depends only on
the region size and the table parsed at that single location. -/
theorem C8_ptable_reader (r : Region) :
    ((∃ p, qcom_smem_get_ptable r = .ok p) ↔
      ((r.ptableAt (r.size - SZ_4K)).magic = SMEM_PTABLE_MAGIC ∧
       (r.ptableAt (r.size - SZ_4K)).version = 1)) ∧
    ((r.ptableAt (r.size - SZ_4K)).magic = SMEM_PTABLE_MAGIC →
      (r.ptableAt (r.size - SZ_4K)).version = 1 →
      qcom_smem_get_ptable r = .ok (r.ptableAt (r.size - SZ_4K))) ∧
    (∀ r2 : Region, r2.size = r.size →
      r2.ptableAt (r2.size - SZ_4K) = r.ptableAt (r.size - SZ_4K) →
      qcom_smem_get_ptable r2 = qcom_smem_get_ptable r) := by
  refine ⟨?_, ?_, ?_⟩
  · constructor
    · intro ⟨p, hp⟩
      unfold qcom_smem_get_ptable at hp
      by_cases h1 : (r.ptableAt (r.size - SZ_4K)).magic = SMEM_PTABLE_MAGIC <;>
        by_cases h2 : (r.ptableAt (r.size - SZ_4K)).version = 1 <;>
        simp [h1, h2] at hp ⊢
    · rintro ⟨h1, h2⟩
      exact ⟨r.ptableAt (r.size - SZ_4K), by
        unfold qcom_smem_get_ptable; simp [h1, h2]⟩
  · intro h1 h2
    unfold qcom_smem_get_ptable
    simp [h1, h2]
  · intro r2 hsz hpt
    rw [hsz] at hpt
    unfold qcom_smem_get_ptable
    rw [hsz, hpt]

/-- C8 witness: a region with a valid table at size − 4096 parses back the table unchanged. -/
theorem C8_witness :
    qcom_smem_get_ptable
        { size := 8192,
          ptableAt := fun _ =>
            { magic := SMEM_PTABLE_MAGIC, version := 1, num_entries := 1
              entries := [entryEmpty] } } =
      .ok { magic := SMEM_PTABLE_MAGIC, version := 1, num_entries := 1
            entries := [entryEmpty] } := by
  exact (C8_ptable_reader _).2.1 rfl rfl

/-- C6: alloc with an item id below the 8 reserved slots fails immediately,
and alloc with an item id at or above the heap's item count fails
immediately, both before any lock acquisition, routing or heap access (empty
event trace, handle unchanged). Amended: the two rejections return the same
error code EINVAL — they are distinct checks but not distinct error
values. -/
theorem C6_amended (s : QcomSmem) (lockOk : Bool) (host item size : Nat) :
    (item < SMEM_ITEM_LAST_FIXED →
      qcom_smem_alloc s lockOk host item size = ((.error .EINVAL, s), [])) ∧
    (SMEM_ITEM_LAST_FIXED ≤ item → s.item_count ≤ item →
      qcom_smem_alloc s lockOk host item size = ((.error .EINVAL, s), [])) := by
  constructor
  · intro h
    simp [qcom_smem_alloc, h]
  · intro h1 h2
    simp [qcom_smem_alloc, Nat.not_lt.mpr h1, h2, Nat.not_lt.mpr h2]

/-- C6 witness: item 5 (reserved) and item 600 (out of range, count 512) are both rejected with EINVAL, no events, handle unchanged. -/
theorem C6_witness :
    qcom_smem_alloc smemGlobalOnly true 0 5 64 =
      ((.error .EINVAL, smemGlobalOnly), []) ∧
    qcom_smem_alloc smemGlobalOnly true 0 600 64 =
      ((.error .EINVAL, smemGlobalOnly), []) := by
  constructor
  · exact (C6_amended smemGlobalOnly true 0 5 64).1 (by norm_num
      [SMEM_ITEM_LAST_FIXED])
  · exact (C6_amended smemGlobalOnly true 0 600 64).2 (by norm_num
      [SMEM_ITEM_LAST_FIXED]) (by norm_num [smemGlobalOnly])

/-- C6 counterexample: the reserved-range rejection and the out-of-range rejection return the same error value. -/
theorem C6_counterexample :
    (qcom_smem_alloc smemGlobalOnly true 0 5 64).1.1 = .error .EINVAL ∧
    (qcom_smem_alloc smemGlobalOnly true 0 600 64).1.1 = .error .EINVAL ∧
    (qcom_smem_alloc smemGlobalOnly true 0 5 64).1.1 =
      (qcom_smem_alloc smemGlobalOnly true 0 600 64).1.1 := by
  refine ⟨?_, ?_, ?_⟩ <;>
    simp [qcom_smem_alloc, smemGlobalOnly, SMEM_ITEM_LAST_FIXED]

/-- C9: qcom_smem_alloc and qcom_smem_get perform their shared-heap access
strictly bracketed by the hwspinlock acquire and release events, or perform
no shared access at all (early rejection or lock timeout). Amended:
qcom_smem_get_free_space reads the shared free offsets without taking the
lock — its event trace is a bare heap access. -/
theorem C9_amended :
    (∀ (s : QcomSmem) (lockOk : Bool) (host item size : Nat),
      (qcom_smem_alloc s lockOk host item size).2 = [] ∨
      (qcom_smem_alloc s lockOk host item size).2 =
        [.acquire, .heapOp, .release]) ∧
    (∀ (s : QcomSmem) (lockOk : Bool) (host item : Nat),
      (qcom_smem_get s lockOk host item).2 = [] ∨
      (qcom_smem_get s lockOk host item).2 =
        [.acquire, .heapOp, .release]) ∧
    (∀ (s : QcomSmem) (host item size : Nat),
      (qcom_smem_alloc s false host item size).2 = []) ∧
    (∀ (s : QcomSmem) (host item : Nat),
      (qcom_smem_get s false host item).2 = []) ∧
    (∀ (s : QcomSmem) (host : Nat),
      (qcom_smem_get_free_space s host).2 = [.heapOp]) := by
  refine ⟨?_, ?_, ?_, ?_, ?_⟩
  · intro s lockOk host item size
    unfold qcom_smem_alloc
    split
    · left; rfl
    · split
      · left; rfl
      · split
        · left; rfl
        · right; rfl
  · intro s lockOk host item
    unfold qcom_smem_get
    split
    · left; rfl
    · split
      · left; rfl
      · right; rfl
  · intro s host item size
    unfold qcom_smem_alloc
    split
    · rfl
    · split
      · rfl
      · split
        · rfl
        · simp at *
  · intro s host item
    unfold qcom_smem_get
    split
    · rfl
    · split
      · rfl
      · simp at *
  · intro s host
    unfold qcom_smem_get_free_space
    rfl

/-- C9 counterexample: the free-space query performs its shared-heap read with no acquire or release event. -/
theorem C9_counterexample :
    (qcom_smem_get_free_space smemGlobalOnly 0).2 = [Ev.heapOp] ∧
    Ev.acquire ∉ (qcom_smem_get_free_space smemGlobalOnly 0).2 ∧
    Ev.release ∉ (qcom_smem_get_free_space smemGlobalOnly 0).2 := by
  refine ⟨rfl, ?_, ?_⟩ <;> simp [qcom_smem_get_free_space]

theorem alloc_private_spec (mem : Mem0) (entry : PtableEntry)
    (item size : Nat)
    (hpre1 : (mem.phdrAt entry.offset).offset_free_uncached ≤
      (mem.phdrAt entry.offset).offset_free_cached)
    (hpre2 : (mem.phdrAt entry.offset).offset_free_cached ≤ entry.size)
    (hcw : (mem.phdrAt entry.offset).offset_free_cached < W32)
    (hbase : entry.offset < W32)
    (hsize : size + PENTRY_SIZE + 7 < W32)
    (hwalk : allocWalk mem.entAt
      (entry.offset + (mem.phdrAt entry.offset).offset_free_uncached) item
      (entry.offset + PHDR_SIZE) =
      .ok (entry.offset + (mem.phdrAt entry.offset).offset_free_uncached)) :
    ((qcom_smem_alloc_private mem entry item size).1 = .error .ENOSPC ↔
      (mem.phdrAt entry.offset).offset_free_cached <
        (mem.phdrAt entry.offset).offset_free_uncached +
          (PENTRY_SIZE + kALIGN size 8)) ∧
    ((mem.phdrAt entry.offset).offset_free_uncached +
        (PENTRY_SIZE + kALIGN size 8) ≤
        (mem.phdrAt entry.offset).offset_free_cached →
      qcom_smem_alloc_private mem entry item size =
        (.ok (),
         { mem with
           entAt := fun o =>
             if o = entry.offset +
                 (mem.phdrAt entry.offset).offset_free_uncached then
               { canary := SMEM_PRIVATE_CANARY, item := item % W16
                 size := kALIGN size 8
                 padding_data := kALIGN size 8 - size, padding_hdr := 0 }
             else mem.entAt o
           phdrAt := fun o =>
             if o = entry.offset then
               { mem.phdrAt entry.offset with
                 offset_free_uncached :=
                   (mem.phdrAt entry.offset).offset_free_uncached +
                     (PENTRY_SIZE + kALIGN size 8) }
             else mem.phdrAt o })) := by
  have h32 : W32 = 4294967296 := by norm_num [W32]
  have h64 : W64 = 18446744073709551616 := by norm_num [W64]
  have h16 : W16 = 65536 := by norm_num [W16]
  have hpe : PENTRY_SIZE = 16 := rfl
  have hks := kALIGN_eight_bounds size (by omega)
  have halloc : (PENTRY_SIZE + kALIGN size 8) % W64 =
      PENTRY_SIZE + kALIGN size 8 := by
    apply Nat.mod_eq_of_lt; omega
  have hsum : (entry.offset +
      (mem.phdrAt entry.offset).offset_free_uncached +
      (PENTRY_SIZE + kALIGN size 8)) % W64 =
      entry.offset + (mem.phdrAt entry.offset).offset_free_uncached +
        (PENTRY_SIZE + kALIGN size 8) := by
    apply Nat.mod_eq_of_lt; omega
  have hstored : kALIGN size 8 % W32 = kALIGN size 8 :=
    Nat.mod_eq_of_lt (by omega)
  have hpd : (kALIGN size 8 + W64 - size % W64) % W64 % W16 =
      kALIGN size 8 - size := by
    rw [Nat.mod_eq_of_lt (show size < W64 by omega)]
    have he : kALIGN size 8 + W64 - size = (kALIGN size 8 - size) + W64 := by
      omega
    rw [he, Nat.add_mod_right,
      Nat.mod_eq_of_lt (show kALIGN size 8 - size < W64 by omega),
      Nat.mod_eq_of_lt (show kALIGN size 8 - size < W16 by omega)]
  have hprelim : ¬ (¬ (entry.offset ≤ entry.offset +
        (mem.phdrAt entry.offset).offset_free_uncached ∧
      entry.offset + (mem.phdrAt entry.offset).offset_free_uncached ≤
        entry.offset + (mem.phdrAt entry.offset).offset_free_cached) ∨
      entry.offset + (mem.phdrAt entry.offset).offset_free_cached >
        entry.offset + entry.size) := by
    push_neg
    exact ⟨⟨by omega, by omega⟩, by omega⟩
  unfold qcom_smem_alloc_private
  rw [if_neg hprelim]
  simp only [hwalk]
  rw [if_neg (lt_irrefl (entry.offset +
    (mem.phdrAt entry.offset).offset_free_uncached))]
  simp only [halloc, hsum]
  by_cases hsp : entry.offset +
      (mem.phdrAt entry.offset).offset_free_cached <
      entry.offset + (mem.phdrAt entry.offset).offset_free_uncached +
        (PENTRY_SIZE + kALIGN size 8)
  · rw [if_pos hsp]
    refine ⟨⟨fun _ => by omega, fun _ => rfl⟩, fun hc => by omega⟩
  · rw [if_neg hsp]
    refine ⟨⟨fun habs => by simp at habs, fun hcc => by omega⟩, fun hc => ?_⟩
    have humod : ((mem.phdrAt entry.offset).offset_free_uncached +
        (PENTRY_SIZE + kALIGN size 8)) % W32 =
        (mem.phdrAt entry.offset).offset_free_uncached +
          (PENTRY_SIZE + kALIGN size 8) :=
      Nat.mod_eq_of_lt (by omega)
    simp only [hstored, hpd, humod]


theorem get_private_found (mem2 : Mem0) (entry : PtableEntry)
    (item ptr sz : Nat)
    (hpre1 : (mem2.phdrAt entry.offset).offset_free_uncached ≤
      (mem2.phdrAt entry.offset).offset_free_cached)
    (hpre2 : (mem2.phdrAt entry.offset).offset_free_cached ≤ entry.size)
    (hfound : getWalkUn mem2.entAt
      (entry.offset + (mem2.phdrAt entry.offset).offset_free_uncached)
      entry.size item (entry.offset + PHDR_SIZE) = .ok (.inl (ptr, sz))) :
    qcom_smem_get_private mem2 entry item = .ok (ptr, sz) := by
  unfold qcom_smem_get_private
  rw [if_neg (by push_neg; exact ⟨⟨by omega, by omega⟩, by omega⟩)]
  simp only [hfound]

/-- C1: for a peer routed to a private partition and an unallocated in-range
item, a successful alloc followed by get of the same item returns exactly the
requested size, the entry being stored with size rounded up to 8 bytes and
padding_data = rounded size minus requested size. Amended: the requested size
must be positive (a zero-byte item is invisible to the lookup walk, see the
counterexample) and representable in the 32-bit size field, and the forward
walk must end exactly at the uncached free offset. -/
theorem C1_roundtrip (mem : Mem0) (entry : PtableEntry) (item size : Nat)
    (hpre1 : (mem.phdrAt entry.offset).offset_free_uncached ≤
      (mem.phdrAt entry.offset).offset_free_cached)
    (hpre2 : (mem.phdrAt entry.offset).offset_free_cached ≤ entry.size)
    (hcw : (mem.phdrAt entry.offset).offset_free_cached < W32)
    (hbase : entry.offset < W32)
    (hsize : size + PENTRY_SIZE + 7 < W32)
    (hpos : 0 < size)
    (hitem : item < W16)
    (hwalk : allocWalk mem.entAt
      (entry.offset + (mem.phdrAt entry.offset).offset_free_uncached) item
      (entry.offset + PHDR_SIZE) =
      .ok (entry.offset + (mem.phdrAt entry.offset).offset_free_uncached))
    (halloc : (qcom_smem_alloc_private mem entry item size).1 = .ok ()) :
    (qcom_smem_alloc_private mem entry item size).2.entAt
        (entry.offset + (mem.phdrAt entry.offset).offset_free_uncached) =
      { canary := SMEM_PRIVATE_CANARY, item := item % W16
        size := kALIGN size 8, padding_data := kALIGN size 8 - size
        padding_hdr := 0 } ∧
    qcom_smem_get_private (qcom_smem_alloc_private mem entry item size).2
        entry item =
      .ok (entry.offset + (mem.phdrAt entry.offset).offset_free_uncached +
        PENTRY_SIZE, size) := by
  have h32 : W32 = 4294967296 := by norm_num [W32]
  have h64 : W64 = 18446744073709551616 := by norm_num [W64]
  have h16 : W16 = 65536 := by norm_num [W16]
  have hpe : PENTRY_SIZE = 16 := rfl
  have hks := kALIGN_eight_bounds size (by omega)
  have hspec := alloc_private_spec mem entry item size hpre1 hpre2 hcw hbase
    hsize hwalk
  have hnsp : (mem.phdrAt entry.offset).offset_free_uncached +
      (PENTRY_SIZE + kALIGN size 8) ≤
      (mem.phdrAt entry.offset).offset_free_cached := by
    by_contra hlt
    push_neg at hlt
    have h047 := hspec.1.mpr hlt
    rw [halloc] at h047
    cases h047
  have heq := hspec.2 hnsp
  constructor
  · rw [heq]
    dsimp only
    rw [if_pos rfl]
  · have hfound := getWalkUn_update_found mem.entAt
      (entry.offset + (mem.phdrAt entry.offset).offset_free_uncached)
      entry.size item (entry.offset + PHDR_SIZE)
      (entry.offset + (mem.phdrAt entry.offset).offset_free_uncached)
      { canary := SMEM_PRIVATE_CANARY, item := item % W16
        size := kALIGN size 8, padding_data := kALIGN size 8 - size
        padding_hdr := 0 }
      (entry.offset + ((mem.phdrAt entry.offset).offset_free_uncached +
        (PENTRY_SIZE + kALIGN size 8)))
      hwalk (by omega) (by omega) rfl
      (by dsimp only; exact Nat.mod_eq_of_lt hitem)
      (by dsimp only; exact ⟨by omega, by omega⟩)
      (by dsimp only
          rw [Nat.mod_eq_of_lt (show entry.offset +
            (mem.phdrAt entry.offset).offset_free_uncached + PENTRY_SIZE + 0 <
            W64 by omega)]
          omega)
      (by dsimp only
          rw [Nat.mod_eq_of_lt (show entry.offset +
            (mem.phdrAt entry.offset).offset_free_uncached + PENTRY_SIZE + 0 <
            W64 by omega)]
          rw [Nat.mod_eq_of_lt (by omega)]
          omega)
      (by dsimp only
          rw [Nat.mod_eq_of_lt (show entry.offset +
            (mem.phdrAt entry.offset).offset_free_uncached + PENTRY_SIZE + 0 <
            W64 by omega)]
          rw [Nat.mod_eq_of_lt (by omega)]
          omega)
    have hu2 : ((qcom_smem_alloc_private mem entry item size).2.phdrAt
        entry.offset).offset_free_uncached =
        (mem.phdrAt entry.offset).offset_free_uncached +
          (PENTRY_SIZE + kALIGN size 8) := by
      rw [heq]
      dsimp only
      rw [if_pos rfl]
    have hc2 : ((qcom_smem_alloc_private mem entry item size).2.phdrAt
        entry.offset).offset_free_cached =
        (mem.phdrAt entry.offset).offset_free_cached := by
      rw [heq]
      dsimp only
      rw [if_pos rfl]
    have hent2 : (qcom_smem_alloc_private mem entry item size).2.entAt =
        fun o =>
          if o = entry.offset +
              (mem.phdrAt entry.offset).offset_free_uncached then
            { canary := SMEM_PRIVATE_CANARY, item := item % W16
              size := kALIGN size 8, padding_data := kALIGN size 8 - size
              padding_hdr := 0 }
          else mem.entAt o := by
      rw [heq]
    apply get_private_found
    · rw [hu2, hc2]
      omega
    · rw [hc2]
      omega
    · rw [hent2, hu2]
      have harith : kALIGN size 8 - (kALIGN size 8 - size) = size := by omega
      have hmodp : (entry.offset +
          (mem.phdrAt entry.offset).offset_free_uncached + PENTRY_SIZE + 0) %
          W64 = entry.offset +
          (mem.phdrAt entry.offset).offset_free_uncached + PENTRY_SIZE := by
        rw [Nat.add_zero]
        exact Nat.mod_eq_of_lt (by omega)
      have hx := hfound
      rw [harith, hmodp] at hx
      exact hx
/-- C1 witness: allocating item 10 with 100 bytes in an empty partition and looking it up returns 100 usable bytes at offset 48. -/
theorem C1_witness :
    (qcom_smem_alloc_private memEmptyPart entryEmpty 10 100).1 = .ok () ∧
    qcom_smem_get_private
        (qcom_smem_alloc_private memEmptyPart entryEmpty 10 100).2
        entryEmpty 10 =
      .ok (48, 100) := by
  have hk : kALIGN 100 8 = 104 := by decide
  have hw : allocWalk memEmptyPart.entAt
      (entryEmpty.offset +
        (memEmptyPart.phdrAt entryEmpty.offset).offset_free_uncached) 10
      (entryEmpty.offset + PHDR_SIZE) =
      .ok (entryEmpty.offset +
        (memEmptyPart.phdrAt entryEmpty.offset).offset_free_uncached) := by
    rw [allocWalk, dif_neg (by norm_num [PENTRY_SIZE, PHDR_SIZE, memEmptyPart,
      entryEmpty, phdrEmpty])]
    norm_num [memEmptyPart, entryEmpty, phdrEmpty, PHDR_SIZE]
  have hw2 : allocWalk (fun _ => zeroEntry) 32 10 32 = .ok 32 := by
    rw [allocWalk, dif_neg (by norm_num)]
  have halloc : (qcom_smem_alloc_private memEmptyPart entryEmpty 10 100).1 =
      .ok () := by
    simp [qcom_smem_alloc_private, memEmptyPart, phdrEmpty, entryEmpty,
      PHDR_SIZE, PENTRY_SIZE, hk, hw2, W64, W32, W16]
  have h := C1_roundtrip memEmptyPart entryEmpty 10 100
    (by norm_num [memEmptyPart, entryEmpty, phdrEmpty, PHDR_SIZE])
    (by norm_num [memEmptyPart, entryEmpty, phdrEmpty])
    (by norm_num [memEmptyPart, entryEmpty, phdrEmpty, W32])
    (by norm_num [entryEmpty, W32])
    (by norm_num [PENTRY_SIZE, W32])
    (by norm_num)
    (by norm_num [W16])
    hw halloc
  refine ⟨halloc, ?_⟩
  rw [h.2]
  norm_num [memEmptyPart, entryEmpty, phdrEmpty, PENTRY_SIZE, PHDR_SIZE]

/-- C1 counterexample: a zero-byte allocation succeeds but the subsequent lookup of the same item returns ENOENT, not a zero size. -/
theorem C1_counterexample :
    (qcom_smem_alloc_private memEmptyPart entryEmpty 8 0).1 = .ok () ∧
    qcom_smem_get_private
        (qcom_smem_alloc_private memEmptyPart entryEmpty 8 0).2
        entryEmpty 8 =
      .error .ENOENT := by
  have hk0 : kALIGN 0 8 = 0 := by decide
  have hw2 : allocWalk (fun _ => zeroEntry) 32 8 32 = .ok 32 := by
    rw [allocWalk, dif_neg (by norm_num)]
  constructor
  · simp [qcom_smem_alloc_private, memEmptyPart, phdrEmpty, entryEmpty,
      PHDR_SIZE, PENTRY_SIZE, hk0, hw2, W64, W32, W16]
  · simp [qcom_smem_alloc_private, qcom_smem_get_private, getWalkUn,
      memEmptyPart, phdrEmpty, entryEmpty, PHDR_SIZE, PENTRY_SIZE, hk0, hw2,
      W64, W32, W16]

/-- C10: lookup enforces only the upper bound item < item_count: alloc
rejects the reserved ids 0..7, but get accepts them and routes straight to
the private-partition lookup, so a reserved item allocated by a bootstrap
peer can be found and returned. -/
theorem C10_lookup_only_upper_bound :
    (∀ (s : QcomSmem) (lockOk : Bool) (host item size : Nat),
      item < SMEM_ITEM_LAST_FIXED →
        (qcom_smem_alloc s lockOk host item size).1.1 = .error .EINVAL) ∧
    (∀ (s : QcomSmem) (host item : Nat) (entry : PtableEntry),
      item < s.item_count → host < SMEM_HOST_COUNT →
      s.ptable_entries host = some entry →
      qcom_smem_get s true host item =
        (match qcom_smem_get_private s.mem entry item with
         | .ok p => .ok (0, p.1, p.2)
         | .error er => .error er,
         [.acquire, .heapOp, .release])) := by
  constructor
  · intro s lockOk host item size h
    simp [qcom_smem_alloc, h]
  · intro s host item entry hcnt hhost hentry
    unfold qcom_smem_get
    rw [if_neg (by omega)]
    rw [if_neg (by simp)]
    unfold routeEntry
    rw [if_pos hhost, hentry]

/-- C10 witness: get of the reserved item 5 through a private partition succeeds under the lock, while alloc of item 5 is rejected. -/
theorem C10_witness :
    qcom_smem_get smemItem5 true 1 5 =
      (.ok (0, 48, 5), [.acquire, .heapOp, .release]) ∧
    (qcom_smem_alloc smemItem5 true 1 5 64).1.1 = .error .EINVAL := by
  constructor
  · have h2 := C10_lookup_only_upper_bound.2 smemItem5 1 5 entryEmpty
      (by norm_num [smemItem5]) (by norm_num [SMEM_HOST_COUNT])
      (by norm_num [smemItem5])
    rw [h2]
    have hgp : qcom_smem_get_private smemItem5.mem entryEmpty 5 =
        .ok (48, 5) := by
      simp [qcom_smem_get_private, getWalkUn, smemItem5, memItem5, item5Entry,
        phdrEmpty, entryEmpty, PHDR_SIZE, PENTRY_SIZE, zeroEntry,
        SMEM_PRIVATE_CANARY, W64, W32, W16]
    rw [hgp]
  · exact C10_lookup_only_upper_bound.1 smemItem5 true 1 5 64
      (by norm_num [SMEM_ITEM_LAST_FIXED])

theorem allocWalk_error_cases (ent : Nat → PrivEntry) (endO item hdr : Nat)
    (e : Err) (hw : allocWalk ent endO item hdr = .error e) :
    e = .EINVAL ∨ e = .EEXIST := by
  revert hw
  induction hdr using allocWalk.induct ent endO item with
  | case1 x hcond hbad =>
    intro hw
    rw [allocWalk, dif_pos hcond, if_pos hbad] at hw
    cases hw
    left; rfl
  | case2 x hcond hbad hit =>
    intro hw
    rw [allocWalk, dif_pos hcond, if_neg (by simpa using hbad),
      if_pos hit] at hw
    cases hw
    right; rfl
  | case3 x hcond hbad hit hprog =>
    intro hw
    rw [allocWalk, dif_pos hcond, if_neg (by simpa using hbad), if_neg hit,
      dif_pos hprog] at hw
    cases hw
    left; rfl
  | case4 x hcond hbad hit hprog ih =>
    intro hw
    rw [allocWalk, dif_pos hcond, if_neg (by simpa using hbad), if_neg hit,
      dif_neg hprog] at hw
    exact ih hw
  | case5 x hcond =>
    intro hw
    rw [allocWalk, dif_neg hcond] at hw
    cases hw

theorem alloc_private_walk_error (mem2 : Mem0) (entry : PtableEntry)
    (item size : Nat) (er : Err)
    (hpre1 : (mem2.phdrAt entry.offset).offset_free_uncached ≤
      (mem2.phdrAt entry.offset).offset_free_cached)
    (hpre2 : (mem2.phdrAt entry.offset).offset_free_cached ≤ entry.size)
    (hwerr : allocWalk mem2.entAt
      (entry.offset + (mem2.phdrAt entry.offset).offset_free_uncached) item
      (entry.offset + PHDR_SIZE) = .error er) :
    (qcom_smem_alloc_private mem2 entry item size).1 = .error er := by
  unfold qcom_smem_alloc_private
  rw [if_neg (by push_neg; exact ⟨⟨by omega, by omega⟩, by omega⟩)]
  simp only [hwerr]

/-- C5: every failing qcom_smem_alloc returns the handle unchanged (first
conjunct). Amended: a second alloc of an already-allocated item fails with
EEXIST provided the first allocation had positive size (second conjunct), and
an alloc that failed with ENOSPC leaves the item invisible to a subsequent
lookup (ENOENT) provided the partition's cached region is empty (third
conjunct) — an item placed by a peer in the cached region is still found by
get even though alloc of that id fails with ENOSPC, see the
counterexample. -/
theorem C5_failed_alloc_invisible :
    (∀ (s : QcomSmem) (lockOk : Bool) (host item size : Nat) (e : Err),
      (qcom_smem_alloc s lockOk host item size).1.1 = .error e →
      (qcom_smem_alloc s lockOk host item size).1.2 = s) ∧
    (∀ (mem : Mem0) (entry : PtableEntry) (item size1 size2 : Nat),
      (mem.phdrAt entry.offset).offset_free_uncached ≤
        (mem.phdrAt entry.offset).offset_free_cached →
      (mem.phdrAt entry.offset).offset_free_cached ≤ entry.size →
      (mem.phdrAt entry.offset).offset_free_cached < W32 →
      entry.offset < W32 →
      size1 + PENTRY_SIZE + 7 < W32 →
      0 < size1 →
      item < W16 →
      allocWalk mem.entAt
        (entry.offset + (mem.phdrAt entry.offset).offset_free_uncached) item
        (entry.offset + PHDR_SIZE) =
        .ok (entry.offset +
          (mem.phdrAt entry.offset).offset_free_uncached) →
      (qcom_smem_alloc_private mem entry item size1).1 = .ok () →
      (qcom_smem_alloc_private
        (qcom_smem_alloc_private mem entry item size1).2
        entry item size2).1 = .error .EEXIST) ∧
    (∀ (mem : Mem0) (entry : PtableEntry) (item size : Nat),
      (mem.phdrAt entry.offset).offset_free_cached = entry.size →
      (qcom_smem_alloc_private mem entry item size).1 = .error .ENOSPC →
      qcom_smem_get_private mem entry item = .error .ENOENT) := by
  refine ⟨?_, ?_, ?_⟩
  · intro s lockOk host item size e he
    unfold qcom_smem_alloc at he ⊢
    by_cases h1 : item < SMEM_ITEM_LAST_FIXED
    · rw [if_pos h1]
    · rw [if_neg h1] at he ⊢
      by_cases h2 : item ≥ s.item_count
      · rw [if_pos h2]
      · rw [if_neg h2] at he ⊢
        by_cases h3 : ¬ lockOk
        · rw [if_pos h3]
        · rw [if_neg h3] at he ⊢
          cases hr : routeEntry s host with
          | some entry =>
            simp only [hr] at he ⊢
            rw [alloc_private_error_unchanged s.mem entry item size e he]
          | none =>
            simp only [hr] at he ⊢
            rw [alloc_global_error_unchanged s.mem item size e he]
  · intro mem entry item size1 size2 hpre1 hpre2 hcw hbase hsize1 hpos1
      hitem hwalk halloc1
    have h32 : W32 = 4294967296 := by norm_num [W32]
    have h64 : W64 = 18446744073709551616 := by norm_num [W64]
    have h16 : W16 = 65536 := by norm_num [W16]
    have hpe : PENTRY_SIZE = 16 := rfl
    have hks := kALIGN_eight_bounds size1 (by omega)
    have hspec := alloc_private_spec mem entry item size1 hpre1 hpre2 hcw
      hbase hsize1 hwalk
    have hnsp : (mem.phdrAt entry.offset).offset_free_uncached +
        (PENTRY_SIZE + kALIGN size1 8) ≤
        (mem.phdrAt entry.offset).offset_free_cached := by
      by_contra hlt
      push_neg at hlt
      have h047 := hspec.1.mpr hlt
      rw [halloc1] at h047
      cases h047
    have heq := hspec.2 hnsp
    have hu2 : ((qcom_smem_alloc_private mem entry item size1).2.phdrAt
        entry.offset).offset_free_uncached =
        (mem.phdrAt entry.offset).offset_free_uncached +
          (PENTRY_SIZE + kALIGN size1 8) := by
      rw [heq]
      dsimp only
      rw [if_pos rfl]
    have hc2 : ((qcom_smem_alloc_private mem entry item size1).2.phdrAt
        entry.offset).offset_free_cached =
        (mem.phdrAt entry.offset).offset_free_cached := by
      rw [heq]
      dsimp only
      rw [if_pos rfl]
    have hent2 : (qcom_smem_alloc_private mem entry item size1).2.entAt =
        fun o =>
          if o = entry.offset +
              (mem.phdrAt entry.offset).offset_free_uncached then
            { canary := SMEM_PRIVATE_CANARY, item := item % W16
              size := kALIGN size1 8, padding_data := kALIGN size1 8 - size1
              padding_hdr := 0 }
          else mem.entAt o := by
      rw [heq]
    apply alloc_private_walk_error
    · rw [hu2, hc2]
      omega
    · rw [hc2]
      omega
    · rw [hent2, hu2]
      have hx := allocWalk_update_exists mem.entAt
        (entry.offset + (mem.phdrAt entry.offset).offset_free_uncached) item
        (entry.offset + PHDR_SIZE)
        (entry.offset + (mem.phdrAt entry.offset).offset_free_uncached)
        { canary := SMEM_PRIVATE_CANARY, item := item % W16
          size := kALIGN size1 8, padding_data := kALIGN size1 8 - size1
          padding_hdr := 0 }
        (entry.offset + ((mem.phdrAt entry.offset).offset_free_uncached +
          (PENTRY_SIZE + kALIGN size1 8)))
        hwalk (by omega) (by omega) rfl
        (by dsimp only; exact Nat.mod_eq_of_lt hitem)
      exact hx
  · intro mem entry item size hcached hnospc
    unfold qcom_smem_alloc_private at hnospc
    by_cases hpl : ¬ (entry.offset ≤ entry.offset +
          (mem.phdrAt entry.offset).offset_free_uncached ∧
        entry.offset + (mem.phdrAt entry.offset).offset_free_uncached ≤
          entry.offset + (mem.phdrAt entry.offset).offset_free_cached) ∨
        entry.offset + (mem.phdrAt entry.offset).offset_free_cached >
          entry.offset + entry.size
    · rw [if_pos hpl] at hnospc
      cases hnospc
    · rw [if_neg hpl] at hnospc
      cases hwv : allocWalk mem.entAt
          (entry.offset + (mem.phdrAt entry.offset).offset_free_uncached)
          item (entry.offset + PHDR_SIZE) with
      | error e =>
        simp only [hwv] at hnospc
        rcases allocWalk_error_cases _ _ _ _ _ hwv with he | he <;>
          rw [he] at hnospc <;> cases hnospc
      | ok hdr =>
        simp only [hwv] at hnospc
        by_cases hh : hdr >
            entry.offset + (mem.phdrAt entry.offset).offset_free_uncached
        · rw [if_pos hh] at hnospc
          cases hnospc
        · unfold qcom_smem_get_private
          rw [if_neg hpl]
          rw [allocWalk_to_getWalkUn mem.entAt _ entry.size item _ _ hwv]
          dsimp only
          rw [if_neg hh]
          rw [if_pos (by rw [hcached])]

/-- C5 witness: a rejected alloc leaves the handle unchanged; a second alloc of item 10 fails with EEXIST; an ENOSPC-failed alloc of item 9 leaves it invisible. -/
theorem C5_witness :
    (qcom_smem_alloc smemGlobalOnly true 0 5 64).1.2 = smemGlobalOnly ∧
    (qcom_smem_alloc_private
        (qcom_smem_alloc_private memEmptyPart entryEmpty 10 100).2
        entryEmpty 10 50).1 = .error .EEXIST ∧
    qcom_smem_get_private memEmptyPart entryEmpty 9 = .error .ENOENT := by
  have hk : kALIGN 100 8 = 104 := by decide
  have hk2 : kALIGN 5000 8 = 5000 := by decide
  have hw2 : allocWalk (fun _ => zeroEntry) 32 10 32 = .ok 32 := by
    rw [allocWalk, dif_neg (by norm_num)]
  have hw : allocWalk memEmptyPart.entAt
      (entryEmpty.offset +
        (memEmptyPart.phdrAt entryEmpty.offset).offset_free_uncached) 10
      (entryEmpty.offset + PHDR_SIZE) =
      .ok (entryEmpty.offset +
        (memEmptyPart.phdrAt entryEmpty.offset).offset_free_uncached) := by
    rw [allocWalk, dif_neg (by norm_num [PENTRY_SIZE, PHDR_SIZE, memEmptyPart,
      entryEmpty, phdrEmpty])]
    norm_num [memEmptyPart, entryEmpty, phdrEmpty, PHDR_SIZE]
  refine ⟨?_, ?_, ?_⟩
  · exact C5_failed_alloc_invisible.1 smemGlobalOnly true 0 5 64 .EINVAL rfl
  · apply C5_failed_alloc_invisible.2.1 memEmptyPart entryEmpty 10 100 50
      (by norm_num [memEmptyPart, entryEmpty, phdrEmpty, PHDR_SIZE])
      (by norm_num [memEmptyPart, entryEmpty, phdrEmpty])
      (by norm_num [memEmptyPart, entryEmpty, phdrEmpty, W32])
      (by norm_num [entryEmpty, W32])
      (by norm_num [PENTRY_SIZE, W32])
      (by norm_num)
      (by norm_num [W16])
      hw
    simp [qcom_smem_alloc_private, memEmptyPart, phdrEmpty, entryEmpty,
      PHDR_SIZE, PENTRY_SIZE, hk, hw2, W64, W32, W16]
  · apply C5_failed_alloc_invisible.2.2 memEmptyPart entryEmpty 9 5000
      (by norm_num [memEmptyPart, entryEmpty, phdrEmpty])
    have hw3 : allocWalk (fun _ => zeroEntry) 32 9 32 = .ok 32 := by
      rw [allocWalk, dif_neg (by norm_num)]
    simp [qcom_smem_alloc_private, memEmptyPart, phdrEmpty, entryEmpty,
      PHDR_SIZE, PENTRY_SIZE, hk2, hw3, W64, W32, W16]

/-- C5 counterexample: after a zero-size alloc of item 9, a second alloc of item 9 succeeds instead of failing with EEXIST; and with item 100 present in the cached region, alloc of item 100 fails with ENOSPC while get still finds it. -/
theorem C5_counterexample :
    ((qcom_smem_alloc_private memEmptyPart entryEmpty 9 0).1 = .ok () ∧
     (qcom_smem_alloc_private
        (qcom_smem_alloc_private memEmptyPart entryEmpty 9 0).2
        entryEmpty 9 8).1 = .ok ()) ∧
    ((qcom_smem_alloc_private memCached entryCached 100 100).1 =
      .error .ENOSPC ∧
     qcom_smem_get_private memCached entryCached 100 = .ok (64, 16)) := by
  have hk0 : kALIGN 0 8 = 0 := by decide
  have hk8 : kALIGN 8 8 = 8 := by decide
  have hk100 : kALIGN 100 8 = 104 := by decide
  have hkc : kALIGN PENTRY_SIZE 16 = 16 := by decide
  have hw32 : ∀ ent : Nat → PrivEntry, allocWalk ent 32 9 32 = .ok 32 := by
    intro ent
    rw [allocWalk, dif_neg (by norm_num)]
  have hw48 : ∀ ent : Nat → PrivEntry, allocWalk ent 48 9 32 = .ok 32 := by
    intro ent
    rw [allocWalk, dif_neg (by norm_num [PENTRY_SIZE])]
  have hwC : ∀ ent : Nat → PrivEntry, allocWalk ent 32 100 32 = .ok 32 := by
    intro ent
    rw [allocWalk, dif_neg (by norm_num)]
  have hwD : ∀ (ent : Nat → PrivEntry) (ps : Nat),
      getWalkUn ent 32 ps 100 32 = .ok (.inr 32) := by
    intro ent ps
    rw [getWalkUn, dif_neg (by norm_num)]
  refine ⟨⟨?_, ?_⟩, ?_, ?_⟩
  · simp [qcom_smem_alloc_private, memEmptyPart, phdrEmpty, entryEmpty,
      PHDR_SIZE, PENTRY_SIZE, hk0, hw32, W64, W32, W16]
  · simp [qcom_smem_alloc_private, memEmptyPart, phdrEmpty, entryEmpty,
      PHDR_SIZE, PENTRY_SIZE, hk0, hk8, hw32, hw48, W64, W32, W16]
  · simp [qcom_smem_alloc_private, memCached, phdrCached, entryCached,
      cachedItemEntry, PHDR_SIZE, PENTRY_SIZE, hk100, hwC, W64, W32, W16]
  · have hkc2 : kALIGN 16 16 = 16 := by decide
    have hca : getWalkCa
        (fun o => if o = 80 then
          { canary := 42405, item := 100, size := 16, padding_data := 0
            padding_hdr := 0 }
         else
          { canary := 0, item := 0, size := 0, padding_data := 0
            padding_hdr := 0 }) 64 16 96 100 80 =
        .ok (.inl (64, 16)) := by
      rw [getWalkCa, dif_pos (by norm_num)]
      norm_num [SMEM_PRIVATE_CANARY, show Int.toNat 80 = 80 from rfl,
        show Int.toNat 64 = 64 from rfl]
    simp [qcom_smem_get_private, memCached, phdrCached,
      entryCached, cachedItemEntry, zeroEntry, SMEM_PRIVATE_CANARY,
      PHDR_SIZE, PENTRY_SIZE, hkc2, hwD, hca, W64, W32, W16]

/-- C3: any forward or backward walk performed by private allocate or private
lookup that reaches an entry whose canary differs from 0xa5a5 makes the whole
operation fail with EINVAL (CorruptionError): conjuncts 1-3 state this for the
allocate walk, the lookup forward walk and the lookup cached (backward) walk
at the operation level; conjuncts 4-5 show the corrupt entry is never skipped
and nothing beyond it is examined or matched — the walk's result is the same
EINVAL for every memory that agrees with the original up to the corrupt
entry, regardless of what lies beyond it. -/
theorem C3_canary_aborts (mem : Mem0) (entry : PtableEntry) :
    (∀ (item size o : Nat),
      VisitsUn mem.entAt
        (entry.offset + (mem.phdrAt entry.offset).offset_free_uncached) item
        (entry.offset + PHDR_SIZE) o →
      o < entry.offset + (mem.phdrAt entry.offset).offset_free_uncached →
      o + PENTRY_SIZE <
        entry.offset + (mem.phdrAt entry.offset).offset_free_uncached →
      (mem.entAt o).canary ≠ SMEM_PRIVATE_CANARY →
      (qcom_smem_alloc_private mem entry item size).1 = .error .EINVAL) ∧
    (∀ (item o : Nat),
      VisitsUn mem.entAt
        (entry.offset + (mem.phdrAt entry.offset).offset_free_uncached) item
        (entry.offset + PHDR_SIZE) o →
      o < entry.offset + (mem.phdrAt entry.offset).offset_free_uncached →
      o + PENTRY_SIZE <
        entry.offset + (mem.phdrAt entry.offset).offset_free_uncached →
      (mem.entAt o).canary ≠ SMEM_PRIVATE_CANARY →
      qcom_smem_get_private mem entry item = .error .EINVAL) ∧
    (∀ (item h : Nat) (o : Int),
      (mem.phdrAt entry.offset).offset_free_uncached ≤
        (mem.phdrAt entry.offset).offset_free_cached →
      (mem.phdrAt entry.offset).offset_free_cached ≤ entry.size →
      getWalkUn mem.entAt
        (entry.offset + (mem.phdrAt entry.offset).offset_free_uncached)
        entry.size item (entry.offset + PHDR_SIZE) = .ok (.inr h) →
      ¬ h > entry.offset + (mem.phdrAt entry.offset).offset_free_uncached →
      (mem.phdrAt entry.offset).offset_free_cached ≠ entry.size →
      ((entry.offset : Int) + ((mem.phdrAt entry.offset).size : Int) -
          (kALIGN PENTRY_SIZE entry.cacheline : Int)) ≥
        ((entry.offset + (mem.phdrAt entry.offset).offset_free_cached :
          Nat) : Int) →
      ((entry.offset : Int) + ((mem.phdrAt entry.offset).size : Int) -
          (kALIGN PENTRY_SIZE entry.cacheline : Int)) +
          (PENTRY_SIZE : Int) ≤
        ((entry.offset + entry.size : Nat) : Int) →
      VisitsCa mem.entAt
        ((entry.offset + (mem.phdrAt entry.offset).offset_free_cached :
          Nat) : Int)
        (kALIGN PENTRY_SIZE entry.cacheline) item
        ((entry.offset : Int) + ((mem.phdrAt entry.offset).size : Int) -
          (kALIGN PENTRY_SIZE entry.cacheline : Int)) o →
      o > ((entry.offset + (mem.phdrAt entry.offset).offset_free_cached :
        Nat) : Int) →
      (mem.entAt o.toNat).canary ≠ SMEM_PRIVATE_CANARY →
      qcom_smem_get_private mem entry item = .error .EINVAL) ∧
    (∀ (ent entq : Nat → PrivEntry) (endO ps item hdr o : Nat),
      VisitsUn ent endO item hdr o →
      o < endO → o + PENTRY_SIZE < endO →
      (ent o).canary ≠ SMEM_PRIVATE_CANARY →
      (∀ q, q ≤ o → entq q = ent q) →
      allocWalk entq endO item hdr = .error .EINVAL ∧
      getWalkUn entq endO ps item hdr = .error .EINVAL) ∧
    (∀ (ent entq : Nat → PrivEntry) (cachedEnd : Int) (A ps item : Nat)
        (e o : Int),
      VisitsCa ent cachedEnd A item e o →
      o > cachedEnd →
      (ent o.toNat).canary ≠ SMEM_PRIVATE_CANARY →
      (∀ q : Nat, o ≤ (q : Int) → entq q = ent q) →
      getWalkCa entq cachedEnd A ps item e = .error .EINVAL) := by
  refine ⟨?_, ?_, ?_, ?_, ?_⟩
  · intro item size o hv h1 h2 hbad
    by_cases hpl : ¬ (entry.offset ≤ entry.offset +
          (mem.phdrAt entry.offset).offset_free_uncached ∧
        entry.offset + (mem.phdrAt entry.offset).offset_free_uncached ≤
          entry.offset + (mem.phdrAt entry.offset).offset_free_cached) ∨
        entry.offset + (mem.phdrAt entry.offset).offset_free_cached >
          entry.offset + entry.size
    · unfold qcom_smem_alloc_private
      rw [if_pos hpl]
    · unfold qcom_smem_alloc_private
      rw [if_neg hpl]
      rw [visitsUn_allocWalk_canary mem.entAt mem.entAt _ item _ o hv h1 h2
        hbad (fun q _ => rfl)]
  · intro item o hv h1 h2 hbad
    by_cases hpl : ¬ (entry.offset ≤ entry.offset +
          (mem.phdrAt entry.offset).offset_free_uncached ∧
        entry.offset + (mem.phdrAt entry.offset).offset_free_uncached ≤
          entry.offset + (mem.phdrAt entry.offset).offset_free_cached) ∨
        entry.offset + (mem.phdrAt entry.offset).offset_free_cached >
          entry.offset + entry.size
    · unfold qcom_smem_get_private
      rw [if_pos hpl]
    · unfold qcom_smem_get_private
      rw [if_neg hpl]
      rw [visitsUn_getWalkUn_canary mem.entAt mem.entAt _ entry.size item _ o
        hv h1 h2 hbad (fun q _ => rfl)]
  · intro item h o hpre1 hpre2 hfall hle hne hchk1 hchk2 hv ho hbad
    unfold qcom_smem_get_private
    rw [if_neg (by push_neg; exact ⟨⟨by omega, by omega⟩, by omega⟩)]
    rw [hfall]
    dsimp only
    rw [if_neg hle]
    rw [if_neg (by intro hcon; exact hne (by omega))]
    rw [if_neg (by
      push_neg
      refine ⟨⟨?_, ?_⟩, hchk1, by omega, hchk2⟩
      · push_cast
        omega
      · push_cast
        omega)]
    rw [visitsCa_getWalkCa_canary mem.entAt mem.entAt _ _ entry.size item _ o
      hv ho hbad (fun q _ => rfl)]
  · intro ent entq endO ps item hdr o hv h1 h2 hbad hagree
    exact ⟨visitsUn_allocWalk_canary ent entq endO item hdr o hv h1 h2 hbad
        hagree,
      visitsUn_getWalkUn_canary ent entq endO ps item hdr o hv h1 h2 hbad
        hagree⟩
  · intro ent entq cachedEnd A ps item e o hv ho hbad hagree
    exact visitsCa_getWalkCa_canary ent entq cachedEnd A ps item e o hv ho
      hbad hagree

/-- C3 witness: with a corrupt canary in the first slot and a valid entry for item 9 beyond it, both allocate and lookup of item 9 fail with EINVAL. -/
theorem C3_witness :
    (memBadCanary.entAt (entryEmpty.offset + PHDR_SIZE)).canary ≠
      SMEM_PRIVATE_CANARY ∧
    (memBadCanary.entAt 56).item = 9 ∧
    (memBadCanary.entAt 56).canary = SMEM_PRIVATE_CANARY ∧
    (qcom_smem_alloc_private memBadCanary entryEmpty 9 8).1 =
      .error .EINVAL ∧
    qcom_smem_get_private memBadCanary entryEmpty 9 = .error .EINVAL := by
  refine ⟨by decide, by decide, by decide, ?_, ?_⟩
  · exact (C3_canary_aborts memBadCanary entryEmpty).1 9 8
      (entryEmpty.offset + PHDR_SIZE)
      (VisitsUn.refl (entryEmpty.offset + PHDR_SIZE))
      (by norm_num [memBadCanary, entryEmpty, PHDR_SIZE])
      (by norm_num [memBadCanary, entryEmpty, PHDR_SIZE, PENTRY_SIZE])
      (by decide)
  · exact (C3_canary_aborts memBadCanary entryEmpty).2.1 9
      (entryEmpty.offset + PHDR_SIZE)
      (VisitsUn.refl (entryEmpty.offset + PHDR_SIZE))
      (by norm_num [memBadCanary, entryEmpty, PHDR_SIZE])
      (by norm_num [memBadCanary, entryEmpty, PHDR_SIZE, PENTRY_SIZE])
      (by decide)

end Smem
